import Mathlib

/-!
Verification of the pathway-generation Lambda of the NextWave repository
(`lambda_function.py`). The development shallowly embeds the JSON values the
handler manipulates, the three generation tasks' deterministic post-processing
and fallback values, and the merge logic of `lambda_handler`, and proves or
refutes the frozen specification claims about them.

Python dictionaries are modelled as association lists of string keys; Python
runtime errors (`TypeError`, `AttributeError`, `KeyError`) raised inside the
merge are modelled with `Except String`, matching the source's behaviour of
letting them propagate to the enclosing `try`/`except` blocks.
-/

set_option maxHeartbeats 1000000
set_option maxRecDepth 4000

namespace NextWave

/-- A JSON-like value, the dynamic data the Lambda manipulates. -/
inductive JValue where
  | null
  | bool (b : Bool)
  | num (n : Int)
  | str (s : String)
  | list (xs : List JValue)
  | obj (fields : List (String × JValue))
deriving Repr

/-- Structural equality of JSON values, mirroring Python `==` on the
corresponding values (values of different types are unequal). -/
def jeq : JValue → JValue → Bool
  | .null, .null => true
  | .bool a, .bool b => a == b
  | .num a, .num b => a == b
  | .str a, .str b => a == b
  | .list [], .list [] => true
  | .list (x :: xs), .list (y :: ys) => jeq x y && jeq (.list xs) (.list ys)
  | .obj [], .obj [] => true
  | .obj ((k, x) :: xs), .obj ((k', y) :: ys) => k == k' && jeq x y && jeq (.obj xs) (.obj ys)
  | _, _ => false

/-- Python `v == s` against a string literal (values of other types are
unequal); used where the source compares a JSON value with a string. -/
def jeqStr (v : JValue) (s : String) : Bool :=
  match v with
  | .str t => t == s
  | _ => false

/-- Python truthiness of a value (`bool(v)`). -/
def truthy : JValue → Bool
  | .null => false
  | .bool b => b
  | .num n => n != 0
  | .str s => s != ""
  | .list xs => !xs.isEmpty
  | .obj fs => !fs.isEmpty

/-- Whether a value is a Python `dict` (`isinstance(v, dict)`). -/
def isObj : JValue → Bool
  | .obj _ => true
  | _ => false


/-- Whether a value is a Python `list` (`isinstance(v, list)`). -/
def isList : JValue → Bool
  | .list _ => true
  | _ => false

/-- Whether a value is a Python `str` (`isinstance(v, str)`). -/
def isStr : JValue → Bool
  | .str _ => true
  | _ => false

/-- Association-list representation of a Python `dict` body. -/
abbrev JObj := List (String × JValue)

/-- The dict body of a value; only used under an `isObj` guard. -/
def asObj : JValue → JObj
  | .obj fs => fs
  | _ => []

/-- Lookup of a key in a dict (first binding wins; bindings are unique since
`jset` updates in place). -/
def jlookup : JObj → String → Option JValue
  | [], _ => none
  | (k', v) :: rest, k => if k' == k then some v else jlookup rest k

/-- Python `k in d` on a dict. -/
def hasKey (o : JObj) (k : String) : Bool :=
  (jlookup o k).isSome

/-- Python `d[k] = v`: replace an existing binding in place, otherwise append
(preserving Python dict insertion order). -/
def jset : JObj → String → JValue → JObj
  | [], k, v => [(k, v)]
  | (k', v') :: rest, k, v =>
      if k' == k then (k, v) :: rest else (k', v') :: jset rest k v

/-- Python `del d[k]`. -/
def jdel (o : JObj) (k : String) : JObj :=
  o.filter (fun p => !(p.1 == k))

/-- Python `d.get(k)`: `None` for a missing key, the stored value otherwise
(distinguishing a missing key from a stored `None` where needed is done via
`jlookup`). -/
def jget (o : JObj) (k : String) : JValue :=
  (jlookup o k).getD .null

/-- Python `d.get(k, default)`. -/
def jgetD (o : JObj) (k : String) (d : JValue) : JValue :=
  (jlookup o k).getD d

/-- ASCII lowering of one character (the only case arising in this code). -/
def pyCharLower (c : Char) : Char :=
  if c.toNat ≥ 65 && c.toNat ≤ 90 then Char.ofNat (c.toNat + 32) else c

/-- ASCII raising of one character. -/
def pyCharUpper (c : Char) : Char :=
  if c.toNat ≥ 97 && c.toNat ≤ 122 then Char.ofNat (c.toNat - 32) else c

/-- Python `s.lower()` (structural, so that proofs can evaluate it). -/
def pyLower (s : String) : String := String.mk (s.data.map pyCharLower)

/-- Python `s.upper()`. -/
def pyUpper (s : String) : String := String.mk (s.data.map pyCharUpper)

/-- Python `s.strip()`: whitespace removed from both ends. -/
def pyStrip (s : String) : String :=
  String.mk (((s.data.dropWhile Char.isWhitespace).reverse.dropWhile
    Char.isWhitespace).reverse)

/-- Whether the first list is a prefix of the second. -/
def prefixOfChars : List Char → List Char → Bool
  | [], _ => true
  | _ :: _, [] => false
  | a :: as, b :: bs => a == b && prefixOfChars as bs

/-- Substring search on character lists. -/
def containsAux (needle : List Char) : List Char → Bool
  | [] => prefixOfChars needle []
  | l@(_ :: rest) => prefixOfChars needle l || containsAux needle rest

/-- Substring test, Python `needle in hay` on strings. -/
def strContains (hay needle : String) : Bool :=
  containsAux needle.data hay.data

/-- The text before the first occurrence of a separator (Python
`s.split(sep)[0]` for a non-empty separator). -/
def beforeSepAux (sep : List Char) : List Char → List Char
  | [] => []
  | l@(c :: rest) => if prefixOfChars sep l then [] else c :: beforeSepAux sep rest

/-- Python `s.split(sep)[0]`. -/
def beforeSep (s sep : String) : String :=
  String.mk (beforeSepAux sep.data s.data)

/-- Python `x in v` on an arbitrary value: key membership for dicts,
substring for strings, element membership for lists, `TypeError` otherwise. -/
def pyIn (needle : String) : JValue → Except String Bool
  | .obj fs => .ok (hasKey fs needle)
  | .str s => .ok (strContains s needle)
  | .list xs => .ok (xs.any (fun x => jeqStr x needle))
  | _ => .error "TypeError: argument not iterable"

/-- Python `v[k]` with a string key: dict indexing; `TypeError` on any other
type (string/list indices must be integers). -/
def pyIndex (v : JValue) (k : String) : Except String JValue :=
  match v with
  | .obj fs =>
      match jlookup fs k with
      | some x => .ok x
      | none => .error "KeyError"
  | _ => .error "TypeError: indices must be integers"

/-- Python `v.get(k)` returning `None` when missing; `AttributeError` when the
receiver is not a dict. -/
def pyGet (v : JValue) (k : String) : Except String JValue :=
  match v with
  | .obj fs => .ok (jget fs k)
  | _ => .error "AttributeError: no attribute get"

/-- Python `v.get(k, default)`; `AttributeError` when the receiver is not a
dict. -/
def pyGetD (v : JValue) (k : String) (d : JValue) : Except String JValue :=
  match v with
  | .obj fs => .ok (jgetD fs k d)
  | _ => .error "AttributeError: no attribute get"

/-- Python iteration over a value: list elements, string characters (as
one-character strings), dict keys; `TypeError` otherwise. -/
def pyIter : JValue → Except String (List JValue)
  | .list xs => .ok xs
  | .str s => .ok (s.toList.map (fun ch => .str (String.mk [ch])))
  | .obj fs => .ok (fs.map (fun p => .str p.1))
  | _ => .error "TypeError: not iterable"

/-- Python `len(v)`; `TypeError` on values without a length. -/
def pyLen : JValue → Except String Nat
  | .list xs => .ok xs.length
  | .str s => .ok s.length
  | .obj fs => .ok fs.length
  | _ => .error "TypeError: no len"

/-- Effectful list filter: the body of a Python list comprehension whose
condition may raise. -/
def filterE (f : JValue → Except String Bool) : List JValue → Except String (List JValue)
  | [] => .ok []
  | x :: xs => do
      let b ← f x
      let rest ← filterE f xs
      return if b then x :: rest else rest

/-! ## Static fallback and skeleton values of `lambda_function.py` -/

/-- Associate-tier financial table (`get_static_financial_data`, and the
inline default of the merge). -/
def finAssoc : JValue :=
  .obj [("tuitionPerYear", .str "4000-6000"), ("housingPerMonth", .str "800-1200"),
        ("booksPerYear", .str "1200"), ("totalCost", .str "12000-18000")]

/-- Bachelor-tier financial table. -/
def finBach : JValue :=
  .obj [("tuitionPerYear", .str "8000-25000"), ("housingPerMonth", .str "1000-1500"),
        ("booksPerYear", .str "1500"), ("totalCost", .str "21000-35000")]

/-- `get_static_financial_data(degree_level)`. -/
def getStaticFinancialData (degree : String) : JObj :=
  if degree == "bachelor" then [("associates", finAssoc), ("bachelors", finBach)]
  else [("associates", finAssoc)]

/-- The associate skeleton installed by the merge when the structure payload
lacks a usable `associates` section (lines 1141-1153). -/
def assocSkeleton (career : String) : JValue :=
  .obj [("programs", .list [.str ("MDC " ++ career ++ " Associate Program")]),
        ("duration", .str "2 years"),
        ("keyCourses", .list [.str "Core courses"])]

/-- The transfer bachelor skeleton (lines 1193-1205). -/
def bachSkeletonTransfer : JValue :=
  .obj [("universities", .list [.str "Transfer to 4-year university"]),
        ("duration", .str "2 years (after AA)"),
        ("keyCourses", .list [.str "Advanced courses"])]

/-- Associate-tier fallback career outcomes (`<career> Assistant` /
`<career> Specialist`). -/
def fallbackOutcomesAssoc (career : String) : JValue :=
  .obj [("entryLevel", .list [.obj [("title", .str (career ++ " Assistant")),
                                    ("salary", .str "35000-45000")]]),
        ("midCareer", .list [.obj [("title", .str (career ++ " Specialist")),
                                   ("salary", .str "50000-70000")]])]

/-- Bachelor-tier fallback career outcomes (`<career> Professional` /
`Senior <career>`). -/
def fallbackOutcomesBach (career : String) : JValue :=
  .obj [("entryLevel", .list [.obj [("title", .str (career ++ " Professional")),
                                    ("salary", .str "55000-70000")]]),
        ("midCareer", .list [.obj [("title", .str ("Senior " ++ career)),
                                   ("salary", .str "75000-110000")]])]

/-- The canned advisor note (lines 644, 1100 and 1283 of the source share
this text). -/
def cannedNote (career : String) : String :=
  "Starting with an Associate\x27s degree at MDC provides a solid foundation for your "
    ++ career
    ++ " career. Focus on building core skills and maintaining strong academic performance to maximize your opportunities."

/-! ## Job-title placeholder filters of the merge -/

/-- Entry-level title filter used at the associate tier (line 1167) and in
the supplemental-bachelors branch (line 1253): the title must be truthy and
contain none of the denylisted substrings, all three tests conjoined. -/
def entryTitleOkA (job : JValue) : Except String Bool := do
  let t ← pyGet job "title"
  if !truthy t then return false
  match t with
  | .str s =>
      let ls := pyLower s
      return (!strContains ls "entry-level" && !strContains ls "position"
              && !strContains ls "job title")
  | _ => .error "AttributeError: no attribute lower"

/-- Entry-level title filter of the `degree_level == 'bachelor'` branch
(line 1218). The source writes `A and B and C or D`, which Python parses as
`(A and B and C) or D` with `D` testing only the `job title` substring; a
title such as `Entry-Level Position` therefore passes. A missing title also
passes, via `D` on the `''` default. -/
def entryTitleOkBBuggy (job : JValue) : Except String Bool :=
  match job with
  | .obj fs =>
      match jlookup fs "title" with
      | none => .ok (!strContains "" "job title")
      | some (.str s) =>
          let ls := pyLower s
          if s != "" && !strContains ls "entry-level" && !strContains ls "position" then
            .ok true
          else
            .ok (!strContains ls "job title")
      | some _ => .error "AttributeError: no attribute lower"
  | _ => .error "AttributeError: no attribute get"

/-- Mid-career title filter (lines 1171, 1222, 1257): truthy title not
containing `mid-career` or `position`. -/
def midTitleOk (job : JValue) : Except String Bool := do
  let t ← pyGet job "title"
  if !truthy t then return false
  match t with
  | .str s =>
      let ls := pyLower s
      return (!strContains ls "mid-career" && !strContains ls "position")
  | _ => .error "AttributeError: no attribute lower"

/-- The `careerOutcomes` computation shared by the three merge branches
(lines 1162-1188, 1213-1238, 1248-1273), parameterised by the section name
of the outcomes payload, the entry-level filter of that branch and the
branch's fallback pair. Returns the value assigned to
`pathway_data[tier]['careerOutcomes']`, or raises as the source would. -/
def computeOutcomes (sec : String) (entryFilter : JValue → Except String Bool)
    (fallback : JValue) (career_data : JValue) : Except String JValue :=
  if truthy career_data && isObj career_data then
    let fs := asObj career_data
    if hasKey fs sec then do
      let secVal := jget fs sec
      let b ← pyIn "careerOutcomes" secVal
      if b then do
        let ao ← pyIndex secVal "careerOutcomes"
        let el ← pyGet ao "entryLevel"
        if truthy el then do
          let n ← pyLen el
          if n > 0 then do
            let items ← pyIter el
            let valid ← filterE entryFilter items
            if !valid.isEmpty then do
              let mc ← pyGet ao "midCareer"
              let validMid ←
                if truthy mc then do
                  let mitems ← pyIter mc
                  filterE midTitleOk mitems
                else pure []
              return .obj [("entryLevel", .list valid), ("midCareer", .list validMid)]
            else return fallback
          else return fallback
        else return fallback
      else return fallback
    else return fallback
  else .ok fallback

/-! ## The merge of `lambda_handler` (lines 1130-1333) -/

/-- Line 1135: a non-dict structure payload is replaced by `{}`. -/
def ensureDict : JValue → JObj
  | .obj fs => fs
  | _ => []

/-- Lines 1140-1153: ensure `associates` exists, is truthy and is a dict. -/
def stageAssoc (career : String) (pd : JObj) : JObj :=
  let pd :=
    if !hasKey pd "associates" || !truthy (jget pd "associates") then
      jset pd "associates" (assocSkeleton career)
    else pd
  if !isObj (jget pd "associates") then jset pd "associates" (assocSkeleton career) else pd

/-- Lines 1156-1188: attach the static associate financial table and the
validated or fallback associate career outcomes. `pd.associates` is an
object here by `stageAssoc`. -/
def stageAssocData (career degree : String) (career_data : JValue) (pd : JObj) :
    Except String JObj := do
  let fin := getStaticFinancialData degree
  let a := match jlookup pd "associates" with | some (.obj a) => a | _ => []
  let a := jset a "financial" (jgetD fin "associates" finAssoc)
  let co ← computeOutcomes "associates" entryTitleOkA (fallbackOutcomesAssoc career) career_data
  return jset pd "associates" (.obj (jset a "careerOutcomes" co))

/-- Lines 1190-1273: the three-way `bachelors` handling. The
`degree_level == 'bachelor'` branch uses the mis-parenthesised entry filter;
the supplemental branch (bachelors present for a non-bachelor request) uses
the correct one and leaves a truthy non-dict `bachelors` value untouched. -/
def stageBach (career degree : String) (career_data : JValue) (pd : JObj) :
    Except String JObj :=
  let fin := getStaticFinancialData degree
  if degree == "bachelor" then
    let pd :=
      if !hasKey pd "bachelors" || !truthy (jget pd "bachelors") then
        jset pd "bachelors" bachSkeletonTransfer
      else pd
    let pd :=
      if !isObj (jget pd "bachelors") then jset pd "bachelors" bachSkeletonTransfer else pd
    let b := match jlookup pd "bachelors" with | some (.obj b) => b | _ => []
    let b := jset b "financial" (jgetD fin "bachelors" finBach)
    do
      let co ← computeOutcomes "bachelors" entryTitleOkBBuggy (fallbackOutcomesBach career)
        career_data
      return jset pd "bachelors" (.obj (jset b "careerOutcomes" co))
  else if hasKey pd "bachelors" && truthy (jget pd "bachelors") then
    match jlookup pd "bachelors" with
    | some (.obj b) =>
        let b := jset b "financial" (jgetD fin "bachelors" finBach)
        do
          let co ← computeOutcomes "bachelors" entryTitleOkA (fallbackOutcomesBach career)
            career_data
          return jset pd "bachelors" (.obj (jset b "careerOutcomes" co))
    | _ => .ok pd
  else .ok pd

/-- Lines 1276-1283: `career`, `degreeLevel` filled from the request only
when the structure payload did not supply them; `note` filled with the
canned message when missing or falsy. -/
def stageIdent (career degree : String) (pd : JObj) : JObj :=
  let pd := if !hasKey pd "career" then jset pd "career" (.str career) else pd
  let pd := if !hasKey pd "degreeLevel" then jset pd "degreeLevel" (.str degree) else pd
  if !hasKey pd "note" || !truthy (jget pd "note") then
    jset pd "note" (.str (cannedNote career))
  else pd

/-- The append loop of lines 1294-1297: walk the credentials task's
certification entries, appending dict entries whose `name` is new to the
structure payload's certification list (`AttributeError` if that value does
not support `append`). -/
def appendNewCerts : List JValue → JValue → List JValue → Except String JValue
  | _, cur, [] => .ok cur
  | existing, cur, c :: rest =>
      match c with
      | .obj cf =>
          if !(existing.any (fun e => jeq e (jgetD cf "name" .null))) then
            match cur with
            | .list xs =>
                appendNewCerts (jgetD cf "name" (.str "") :: existing) (.list (xs ++ [c])) rest
            | _ => .error "AttributeError: no attribute append"
          else appendNewCerts existing cur rest
      | _ => appendNewCerts existing cur rest

/-- Lines 1286-1301: merge the credentials task's certifications and clubs. -/
def stageCreds (certifications_data : JValue) (pd : JObj) : Except String JObj :=
  if truthy certifications_data && isObj certifications_data then
    match certifications_data with
    | .obj cd => do
        let pd ←
          if !hasKey pd "certifications" || !truthy (jget pd "certifications") then
            .ok (if truthy (jget cd "certifications") then
                   jset pd "certifications" (jget cd "certifications")
                 else pd)
          else if truthy (jget pd "certifications") && truthy (jget cd "certifications") then do
            let items ← pyIter (jget pd "certifications")
            let existing := items.filterMap (fun c =>
              match c with
              | .obj cf => some (jgetD cf "name" (.str ""))
              | _ => none)
            let certsIn ← pyIter (jget cd "certifications")
            let newVal ← appendNewCerts existing (jget pd "certifications") certsIn
            .ok (jset pd "certifications" newVal)
          else .ok pd
        return (if truthy (jget cd "clubs") then jset pd "clubs" (jget cd "clubs") else pd)
    | _ => .ok pd
  else .ok pd

/-- Lines 1316-1333: the final-safety associate fallback value. -/
def assocFinalFallback (career : String) : JValue :=
  .obj [("programs", .list [.str ("MDC " ++ career ++ " Associate Program")]),
        ("duration", .str "2 years"),
        ("keyCourses", .list [.str "Core courses"]),
        ("financial", finAssoc),
        ("careerOutcomes", fallbackOutcomesAssoc career)]

/-- Lines 1303-1333: the `certifications`/`exams` branches of the source are
`pass` statements (empty lists left in place), `internships` is defaulted,
and the final safety check reinstalls `associates` when absent or non-dict. -/
def stageTail (career : String) (pd : JObj) : JObj :=
  let pd := if !hasKey pd "internships" then jset pd "internships" (.list []) else pd
  if !hasKey pd "associates" || !isObj (jget pd "associates") then
    jset pd "associates" (assocFinalFallback career)
  else pd

/-- The full merge of `lambda_handler` (lines 1130-1333), from the three
task payloads to the stored pathway document; a raised Python error is
propagated (the handler's outer `except` turns it into a 500 response). -/
def mergeResults (career degree : String)
    (pathway_data career_data certifications_data : JValue) : Except String JObj := do
  let pd := ensureDict pathway_data
  let pd := stageAssoc career pd
  let pd ← stageAssocData career degree career_data pd
  let pd ← stageBach career degree career_data pd
  let pd := stageIdent career degree pd
  let pd ← stageCreds certifications_data pd
  return stageTail career pd

/-! ## The structure task (`generate_pathway_structure`, lines 431-675) -/

/-- Lower-case hex digit. -/
def hexChar (n : Nat) : Char :=
  if n < 10 then Char.ofNat (48 + n) else Char.ofNat (87 + n)

/-- Two lower-case hex digits, as in a Python `\\xhh` escape. -/
def hex2 (n : Nat) : String :=
  String.mk [hexChar (n / 16 % 16), hexChar (n % 16)]

/-- One character of a Python string repr: backslash-escape the quote and
the backslash, name the common control characters, `\\xhh` the remaining
ASCII control characters; other characters stand verbatim (ASCII-precise:
CPython additionally escapes the non-printable characters above ASCII). -/
def pyReprEsc (quote : Char) (c : Char) : String :=
  if c = quote || c.toNat = 92 then String.mk [Char.ofNat 92, c]
  else if c.toNat = 9 then String.mk [Char.ofNat 92, Char.ofNat 116]
  else if c.toNat = 10 then String.mk [Char.ofNat 92, Char.ofNat 110]
  else if c.toNat = 13 then String.mk [Char.ofNat 92, Char.ofNat 114]
  else if c.toNat < 32 || c.toNat = 127 then
    String.mk [Char.ofNat 92, Char.ofNat 120] ++ hex2 c.toNat
  else String.mk [c]

/-- Python `repr` of a string: single quotes, or double quotes when the
text holds a single quote but no double quote. -/
def pyReprStrLit (s : String) : String :=
  let quote : Char :=
    if s.data.contains (Char.ofNat 39) && !s.data.contains (Char.ofNat 34) then Char.ofNat 34
    else Char.ofNat 39
  String.mk [quote] ++ String.join (s.data.map (pyReprEsc quote)) ++ String.mk [quote]

mutual

/-- Python `repr(v)` on a JSON value (what `str` falls back to for
containers): quoted strings, `None`/`True`/`False`, numbers, and
comma-joined brackets for lists and dicts. -/
def pyReprOf : JValue → String
  | .null => "None"
  | .bool true => "True"
  | .bool false => "False"
  | .num n => toString n
  | .str s => pyReprStrLit s
  | .list xs => "[" ++ pyReprList xs ++ "]"
  | .obj fs => "\x7b" ++ pyReprObj fs ++ "\x7d"

/-- The comma-joined element reprs of a list. -/
def pyReprList : List JValue → String
  | [] => ""
  | [x] => pyReprOf x
  | x :: xs => pyReprOf x ++ ", " ++ pyReprList xs

/-- The comma-joined `key: value` reprs of a dict. -/
def pyReprObj : List (String × JValue) → String
  | [] => ""
  | [(k, v)] => pyReprStrLit k ++ ": " ++ pyReprOf v
  | (k, v) :: fs => pyReprStrLit k ++ ": " ++ pyReprOf v ++ ", " ++ pyReprObj fs

end

/-- Python `str(v)` as used inside f-strings, `.join` and the club
keyword test: the text itself for a string, the repr rendering for
everything else. -/
def pyStrOf : JValue → String
  | .str s => s
  | v => pyReprOf v

/-- Helper for whitespace splitting: accumulate the current word
(reversed) while scanning. -/
def splitWsAux : List Char → List Char → List String
  | acc, [] => if acc.isEmpty then [] else [String.mk acc.reverse]
  | acc, c :: cs =>
      if c.isWhitespace then
        (if acc.isEmpty then [] else [String.mk acc.reverse]) ++ splitWsAux [] cs
      else splitWsAux (c :: acc) cs

/-- Python `career.lower().split()`: whitespace splitting with empty pieces
dropped. -/
def pySplitWords (s : String) : List String :=
  splitWsAux [] s.data

/-- Validity test for a certification/exam entry of the structure payload
(lines 540-545 and 557-562): a dict with a truthy `name` or `title`, or a
string with non-blank content. -/
def certEntryValid : JValue → Bool
  | .obj cf => truthy (jget cf "name") || truthy (jget cf "title")
  | .str s => pyStrip s != ""
  | _ => false

/-- Lines 533-549 (and 551-567 for `exams`): drop the key when falsy or when
filtering leaves no valid entry, else keep only the valid entries. -/
def filterCredList (key : String) (pd : JObj) : Except String JObj :=
  if hasKey pd key then
    let v := jget pd key
    if !truthy v then .ok (jdel pd key)
    else do
      let n ← pyLen v
      if n == 0 then .ok (jdel pd key)
      else do
        let items ← pyIter v
        let valid := items.filter certEntryValid
        if !valid.isEmpty then .ok (jset pd key (.list valid))
        else .ok (jdel pd key)
  else .ok pd

/-- Lines 570-575 for one tier: truncate `keyCourses` to 5 when the section
has such a key and the value is a list (raising as Python does when the
section is indexed with a string key but is not a dict). -/
def truncateKeyCourses (tier : String) (pd : JObj) : Except String JObj := do
  let b ← if hasKey pd tier then pyIn "keyCourses" (jget pd tier) else pure false
  if b then
    match jlookup pd tier with
    | some (.obj a) =>
        match jlookup a "keyCourses" with
        | some (.list xs) => .ok (jset pd tier (.obj (jset a "keyCourses" (.list (xs.take 5)))))
        | _ => .ok pd
    | some _ => .error "TypeError: indices must be integers"
    | none => .ok pd
  else .ok pd

/-- `validate_courses_against_mdc` (lines 300-321), on the MDC item's course
list and the payload's course value; any Python error is surfaced so the
caller's bare `except` can swallow it. -/
def validateCoursesAgainstMdc (courses : JValue) (m : JObj) : Except String JValue :=
  if !(!m.isEmpty) || !hasKey m "courses" || !truthy (jget m "courses") then .ok courses
  else do
    let mcourses ← pyIter (jget m "courses")
    let codes ← mcourses.foldlM (fun (acc : List String) c =>
      match c with
      | .obj cf =>
          if truthy (jget cf "code") then
            match jgetD cf "code" (.str "") with
            | .str s => .ok (pyUpper s :: acc)
            | _ => .error "AttributeError: no attribute upper"
          else .ok acc
      | _ => .error "AttributeError: no attribute get") []
    let items ← pyIter courses
    let valid ← items.foldlM (fun (acc : List JValue) c =>
      match c with
      | .str s =>
          let code := pyUpper (pyStrip (beforeSep s " - "))
          if codes.contains code then .ok (acc ++ [c]) else .ok acc
      | .obj cf =>
          match jgetD cf "code" (.str "") with
          | .str s => if codes.contains (pyUpper s) then .ok (acc ++ [c]) else .ok acc
          | _ => .error "AttributeError: no attribute upper"
      | _ => .ok acc) []
    if !valid.isEmpty then .ok (.list valid) else .ok courses

/-- Lines 620-632: format the MDC store's full course list (`CODE - Name`
for complete dict entries, bare name otherwise, strings verbatim; entries
with neither are skipped). -/
def formatFullCourses (cs : List JValue) : List JValue :=
  cs.foldl (fun acc c =>
    match c with
    | .obj cf =>
        let code := jgetD cf "code" (.str "")
        let name := jgetD cf "name" (.str "")
        if truthy code && truthy name then
          acc ++ [.str (pyStrOf code ++ " - " ++ pyStrOf name)]
        else if truthy name then acc ++ [name]
        else acc
    | .str s => acc ++ [.str s]
    | _ => acc) []

/-- The minimal fallback of `generate_pathway_structure` itself
(lines 657-675): note the seeded empty `certifications`/`exams` lists and
the absence of any `note` or (for associate requests) `bachelors` key. -/
def structFallbackInternal (career degree : String) : JValue :=
  let base : JObj :=
    [("career", .str career), ("degreeLevel", .str degree),
     ("associates", .obj [("programs", .list [.str ("MDC " ++ career ++ " Pathway")]),
                          ("duration", .str "2 years"),
                          ("keyCourses", .list [.str "Core courses"])]),
     ("certifications", .list []), ("exams", .list []), ("internships", .list [])]
  .obj (if degree == "bachelor" then base ++ [("bachelors", bachSkeletonTransfer)] else base)

/-- Lines 578-583: install the associate skeleton when the key is missing. -/
def stepEnsureAssoc (career : String) (pd : JObj) : JObj :=
  if !hasKey pd "associates" then jset pd "associates" (assocSkeleton career) else pd

/-- Lines 586-603: for bachelor requests without a `bachelors` section,
install the MDC variant when the knowledge item is a bachelor program, the
transfer variant otherwise. -/
def stepEnsureBach (degree : String) (mdc : Option JObj) (pd : JObj) : Except String JObj :=
  if degree == "bachelor" && !hasKey pd "bachelors" then do
    let mdcBach ←
      match mdc with
      | some m =>
          if !m.isEmpty then
            match jgetD m "degreeType" (.str "") with
            | .str s =>
                if ["bachelor", "bachelors", "ba", "bs"].contains (pyLower s) then
                  match jlookup m "programName" with
                  | some v => Except.ok v
                  | none => Except.error "KeyError: programName"
                else Except.ok .null
            | _ => Except.error "AttributeError: no attribute lower"
          else Except.ok JValue.null
      | none => Except.ok JValue.null
    if truthy mdcBach then
      Except.ok (jset pd "bachelors"
        (.obj [("universities", .list [.str "Miami Dade College"]),
               ("duration", .str "4 years"),
               ("keyCourses", .list [.str "Advanced courses"])]))
    else Except.ok (jset pd "bachelors" bachSkeletonTransfer)
  else Except.ok pd

/-- Lines 605-613: validate the associate `keyCourses` against the store,
swallowing any error (inner `try`/`except`). -/
def stepValidate (mdc : Option JObj) (pd : JObj) : Except String JObj :=
  match mdc with
  | some m =>
      if !m.isEmpty then do
        let b ← if hasKey pd "associates" then pyIn "keyCourses" (jget pd "associates") else pure false
        if b then
          match (do
            let kc ← pyIndex (jget pd "associates") "keyCourses"
            let vc ← validateCoursesAgainstMdc kc m
            match jlookup pd "associates" with
            | some (.obj a) => Except.ok (jset pd "associates" (.obj (jset a "keyCourses" vc)))
            | _ => Except.error "TypeError: item assignment" :
              Except String JObj) with
          | .ok pd' => Except.ok pd'
          | .error _ => Except.ok pd
        else Except.ok pd
      else Except.ok pd
  | none => Except.ok pd

/-- Lines 616-617: record the related MDC program when one was found. -/
def stepRelated (relatedProgram : Option String) (pd : JObj) : JObj :=
  match relatedProgram with
  | some rp => if rp != "" then jset pd "relatedMDCProgram" (.str rp) else pd
  | none => pd

/-- Lines 619-638: attach the store's complete formatted course list to the
associate section (resetting it to a dict first when needed). -/
def stepFullCourses (mdc : Option JObj) (pd : JObj) : Except String JObj :=
  match mdc with
  | some m =>
      if !m.isEmpty && hasKey m "courses" && truthy (jget m "courses") then do
        let cs ← pyIter (jget m "courses")
        let full := formatFullCourses cs
        if hasKey pd "associates" then
          match jlookup pd "associates" with
          | some (.obj a) => Except.ok (jset pd "associates" (.obj (jset a "fullCourseList" (.list full))))
          | _ => Except.ok (jset pd "associates" (.obj (jset ([] : JObj) "fullCourseList" (.list full))))
        else Except.ok pd
      else Except.ok pd
  | none => Except.ok pd

/-- Lines 640-644: promote `advisorNote` or install the canned note. -/
def stepNote (career : String) (pd : JObj) : JObj :=
  if !hasKey pd "note" && hasKey pd "advisorNote" then jset pd "note" (jget pd "advisorNote")
  else if !hasKey pd "note" || !truthy (jget pd "note") then
    jset pd "note" (.str (cannedNote career))
  else pd

/-- The success-path post-processing of `generate_pathway_structure`
(lines 531-649) as an error-propagating computation over the parsed
provider JSON; `mdc` is the knowledge-store item found for the career (if
any) and `relatedProgram` its program name. -/
def asObjE : JValue → Except String JObj
  | .obj fs => Except.ok fs
  | _ => Except.error "TypeError: payload is not a dict"

def processStructure (career degree : String) (mdc : Option JObj)
    (relatedProgram : Option String) (parsed : JValue) (raw : String) :
    Except String JObj := do
  let pd ← asObjE parsed
  let pd ← filterCredList "certifications" pd
  let pd ← filterCredList "exams" pd
  let pd ← truncateKeyCourses "associates" pd
  let pd ← truncateKeyCourses "bachelors" pd
  let pd := stepEnsureAssoc career pd
  let pd ← stepEnsureBach degree mdc pd
  let pd ← stepValidate mdc pd
  let pd := stepRelated relatedProgram pd
  let pd ← stepFullCourses mdc pd
  let pd := stepNote career pd
  return jset pd "rawResponse" (.str (pyStrip raw))

/-- `generate_pathway_structure` on the path where the provider call
returned parseable JSON: the processed payload, or the internal fallback
when any step raised (the function-level `except` of line 651). -/
def genStructure (career degree : String) (mdc : Option JObj)
    (relatedProgram : Option String) (parsed : JValue) (raw : String) : JValue :=
  match processStructure career degree mdc relatedProgram parsed raw with
  | .ok pd => .obj pd
  | .error _ => structFallbackInternal career degree

/-! ## The outcomes task (`generate_career_outcomes`, lines 677-787) -/

/-- The fallback payload of the outcomes task; the handler-level fallback of
lines 1107-1120 is textually identical. -/
def outcomesFallback (career : String) : JValue :=
  .obj [("associates", .obj [("careerOutcomes", fallbackOutcomesAssoc career)]),
        ("bachelors", .obj [("careerOutcomes", fallbackOutcomesBach career)])]

/-! ## The credentials task (`match_certifications`, lines 789-997) -/

/-- Python `.lower()` on a field value pulled with a `''` default. -/
def asLowerStr : JValue → Except String String
  | .str s => .ok (pyLower s)
  | _ => .error "AttributeError: no attribute lower"

/-- Candidate test for one certification record (lines 808-816): some career
keyword longer than 3 characters occurs in the name, description or PDF
text. -/
def certCandidateMatch (kws : List String) (item : JValue) : Except String Bool :=
  match item with
  | .obj f => do
      let cn ← asLowerStr (jgetD f "certificateName" (.str ""))
      let de ← asLowerStr (jgetD f "description" (.str ""))
      let pc ← asLowerStr (jgetD f "pdfContent" (.str ""))
      return kws.any (fun kw => decide (kw.length > 3)
        && (strContains cn kw || strContains de kw || strContains pc kw))
  | _ => .error "AttributeError: no attribute get"

/-- Candidate test for one club record (lines 831-841). -/
def clubCandidateMatch (kws : List String) (item : JValue) : Except String Bool :=
  match item with
  | .obj f => do
      let cn ← asLowerStr (jgetD f "clubName" (.str ""))
      let no ← asLowerStr (jgetD f "notes" (.str ""))
      let sa ← asLowerStr (jgetD f "schoolArea" (.str ""))
      let ms ← pyIter (jgetD f "suggestedMajors" (.list []))
      let majorsStr := String.intercalate " " (ms.map (fun m =>
        match m with
        | .str s => pyLower s
        | v => pyLower (pyStrOf v)))
      return kws.any (fun kw => decide (kw.length > 3)
        && (strContains cn kw || strContains no kw || strContains sa kw
            || strContains majorsStr kw))
  | _ => .error "AttributeError: no attribute get"

/-- The candidate certifications the knowledge lookup returns for a career
(scan filter plus the `[:20]` cut; a raising record empties the whole
result, as the `except` of line 821 does). -/
def certCandidates (career : String) (store : List JValue) : List JValue :=
  match filterE (certCandidateMatch (pySplitWords (pyLower career))) store with
  | .ok l => l.take 20
  | .error _ => []

/-- The candidate clubs (scan filter plus `[:20]`; `except` of line 847). -/
def clubCandidates (career : String) (store : List JValue) : List JValue :=
  match filterE (clubCandidateMatch (pySplitWords (pyLower career))) store with
  | .ok l => l.take 20
  | .error _ => []

/-- Keep condition of the ranked-certification comprehension (line 944):
high/medium relevance and a non-blank stripped name. -/
def rankedKeep (c : JValue) : Except String Bool :=
  match c with
  | .obj cf =>
      let rel := jget cf "relevance"
      if jeqStr rel "high" || jeqStr rel "medium" then
        match jgetD cf "name" (.str "") with
        | .str s => .ok (pyStrip s != "")
        | _ => .error "AttributeError: no attribute strip"
      else .ok false
  | _ => .error "AttributeError: no attribute get"

/-- Formatting of a kept certification entry (lines 939-943). -/
def fmtCert (c : JValue) : JValue :=
  match c with
  | .obj cf =>
      match jgetD cf "name" (.str "") with
      | .str s => .obj [("name", .str ((pyStrip s).take 80)), ("required", .bool false)]
      | _ => .obj [("name", .str ""), ("required", .bool false)]
  | _ => .obj [("name", .str ""), ("required", .bool false)]

/-- Formatting of a kept club entry (lines 949-952). -/
def fmtClub (c : JValue) : JValue :=
  match c with
  | .obj cf =>
      match jgetD cf "name" (.str "") with
      | .str s => .obj [("name", .str ((pyStrip s).take 80))]
      | _ => .obj [("name", .str "")]
  | _ => .obj [("name", .str "")]

/-- Lines 937-945: the ranked certifications taken from the provider's
response — relevance-filtered, formatted, cut to 5. An absent
`certifications` key leaves the previously-empty list. -/
def rankedCerts (respJson : JValue) : Except String (List JValue) := do
  let b ← pyIn "certifications" respJson
  if b then do
    let lst ← pyIndex respJson "certifications"
    let items ← pyIter lst
    let kept ← filterE rankedKeep items
    return ((kept.map fmtCert).take 5)
  else return []

/-- Lines 947-955: the ranked clubs. -/
def rankedClubs (respJson : JValue) : Except String (List JValue) := do
  let b ← pyIn "clubs" respJson
  if b then do
    let lst ← pyIndex respJson "clubs"
    let items ← pyIter lst
    let kept ← filterE rankedKeep items
    return ((kept.map fmtClub).take 5)
  else return []

/-- `match_certifications` on the path where the provider call succeeded and
its response parsed to `resp`: when no candidate matched, the provider is
never consulted; a Python error while reading the response is swallowed by
the `except` of line 982, keeping whatever had been assigned. -/
def matchCertifications (career : String) (certStore clubStore : List JValue)
    (resp : JValue) : JValue :=
  let certs := certCandidates career certStore
  let clubs := clubCandidates career clubStore
  if certs.isEmpty && clubs.isEmpty then
    .obj [("certifications", .list []), ("clubs", .list [])]
  else
    match rankedCerts resp with
    | .error _ => .obj [("certifications", .list []), ("clubs", .list [])]
    | .ok rc =>
        match rankedClubs resp with
        | .error _ => .obj [("certifications", .list rc), ("clubs", .list [])]
        | .ok rk => .obj [("certifications", .list rc), ("clubs", .list rk)]

/-- The internal fallback of `match_certifications` (lines 994-997). -/
def credsFallbackInternal : JValue :=
  .obj [("certifications", .list []), ("clubs", .list [])]

/-! ## The handler (`lambda_handler`, lines 999-1379, pathway route) -/

/-- The handler-level structure fallback (lines 1084-1101): unlike the
task-internal one it carries a `note`, and it always carries a `bachelors`
key — bound to `None` for non-bachelor requests. -/
def structFallbackHandler (career degree : String) : JValue :=
  .obj [("career", .str career), ("degreeLevel", .str degree),
        ("associates", .obj [("programs", .list [.str ("MDC " ++ career ++ " Pathway")]),
                             ("duration", .str "2 years"),
                             ("keyCourses", .list [.str "Core courses"])]),
        ("bachelors", if degree == "bachelor" then bachSkeletonTransfer else .null),
        ("certifications", .list []), ("exams", .list []), ("internships", .list []),
        ("note", .str (cannedNote career))]

/-- The handler-level credentials fallback (lines 1126-1128). -/
def credsFallbackHandler : JValue :=
  .obj [("certifications", .list [])]

/-- The outcome the orchestration records for one task: the value its
future returned, or an orchestrator-level failure (timeout or escaped
exception). -/
inductive TaskOutcome where
  | ok (v : JValue)
  | failed

/-- The observable effects of one pathway request. -/
structure HandlerResult where
  statusCode : Nat
  pathway : Option JObj
  errorMsg : Option String
  cachedFlag : Bool
  ranTasks : Bool
  wroteCache : Bool

/-- The pathway route of `lambda_handler`: request validation, cache
lookup, orchestration of the three tasks (each failure replaced by the
handler-level fallback of its `except` arm), merge, cache write, response.
`careerRaw`/`degreeRaw` are the body fields after their `''`/`'associate'`
defaults. -/
def lambdaHandler (careerRaw degreeRaw : String) (cached : Option JObj)
    (structOut outcomesOut credsOut : TaskOutcome) : HandlerResult :=
  let career := pyStrip careerRaw
  let degree := pyStrip degreeRaw
  if career == "" then
    { statusCode := 400, pathway := none, errorMsg := some "Career field is required",
      cachedFlag := false, ranTasks := false, wroteCache := false }
  else
    match cached with
    | some doc =>
        { statusCode := 200, pathway := some doc, errorMsg := none,
          cachedFlag := true, ranTasks := false, wroteCache := false }
    | none =>
        let pathway_data := match structOut with
          | .ok v => v
          | .failed => structFallbackHandler career degree
        let career_data := match outcomesOut with
          | .ok v => v
          | .failed => outcomesFallback career
        let certifications_data := match credsOut with
          | .ok v => v
          | .failed => credsFallbackHandler
        match mergeResults career degree pathway_data career_data certifications_data with
        | .ok doc =>
            { statusCode := 200, pathway := some doc, errorMsg := none,
              cachedFlag := false, ranTasks := true, wroteCache := true }
        | .error e =>
            { statusCode := 500, pathway := none, errorMsg := some e,
              cachedFlag := false, ranTasks := true, wroteCache := false }

/-! ## Association-list lemmas -/

theorem jlookup_jset_self (o : JObj) (k : String) (v : JValue) :
    jlookup (jset o k v) k = some v := by
  induction o with
  | nil => simp [jset, jlookup]
  | cons p rest ih =>
      obtain ⟨k', v'⟩ := p
      by_cases h : k' = k
      · simp [jset, jlookup, h]
      · simp [jset, jlookup, h, ih]

theorem jlookup_jset_ne (o : JObj) (k k' : String) (v : JValue) (h : k' ≠ k) :
    jlookup (jset o k v) k' = jlookup o k' := by
  have h' : k ≠ k' := Ne.symm h
  induction o with
  | nil => simp [jset, jlookup, h']
  | cons p rest ih =>
      obtain ⟨k₀, v₀⟩ := p
      by_cases h0 : k₀ = k
      · subst h0
        simp [jset, jlookup, h']
      · simp [jset, jlookup, h0, ih]

theorem hasKey_jset_self (o : JObj) (k : String) (v : JValue) :
    hasKey (jset o k v) k = true := by
  simp [hasKey, jlookup_jset_self]

theorem hasKey_jset_ne (o : JObj) (k k' : String) (v : JValue) (h : k' ≠ k) :
    hasKey (jset o k v) k' = hasKey o k' := by
  simp [hasKey, jlookup_jset_ne _ _ _ _ h]

theorem jset_ne_nil (o : JObj) (k : String) (v : JValue) : jset o k v ≠ [] := by
  cases o with
  | nil => simp [jset]
  | cons p rest =>
      obtain ⟨k', v'⟩ := p
      by_cases h : k' = k <;> simp [jset, h]

/-! ## Shape lemmas for the merge stages -/

theorem ne_nil_of_not_isEmpty (l : List JValue) (h : (!l.isEmpty) = true) : l ≠ [] := by
  cases l <;> simp_all

/-- Whatever `computeOutcomes` returns without raising is either the
branch's fallback pair or a two-field record whose `entryLevel` list is
non-empty (the guard of lines 1168/1219/1254). -/
theorem computeOutcomes_shape (sec : String) (f : JValue → Except String Bool)
    (fb : JValue) (cd : JValue) (co : JValue)
    (h : computeOutcomes sec f fb cd = .ok co) :
    co = fb ∨ ∃ v m, co = .obj [("entryLevel", .list v), ("midCareer", .list m)] ∧ v ≠ [] := by
  unfold computeOutcomes at h
  simp only [bind, Except.bind, pure, Except.pure] at h
  repeat' split at h
  any_goals exact Except.noConfusion h
  all_goals simp only [Except.ok.injEq] at h
  all_goals first
    | exact Or.inl h.symm
    | exact Or.inr ⟨_, _, h.symm, ne_nil_of_not_isEmpty _ (by assumption)⟩

/-- Destructuring of a successful `stageAssocData` run: the result is the
input with `associates` rebuilt around the financial table and a
successfully computed outcomes value. -/
theorem stageAssocData_spec (career degree : String) (cd : JValue) (pd pd' : JObj)
    (h : stageAssocData career degree cd pd = .ok pd') :
    ∃ co, computeOutcomes "associates" entryTitleOkA (fallbackOutcomesAssoc career) cd = .ok co ∧
      pd' = jset pd "associates"
        (.obj (jset
          (jset (match jlookup pd "associates" with | some (.obj a) => a | _ => [])
            "financial" (jgetD (getStaticFinancialData degree) "associates" finAssoc))
          "careerOutcomes" co)) := by
  unfold stageAssocData at h
  simp only [bind, Except.bind, pure, Except.pure] at h
  cases hco : computeOutcomes "associates" entryTitleOkA (fallbackOutcomesAssoc career) cd with
  | error e => rw [hco] at h; exact Except.noConfusion h
  | ok co =>
      rw [hco] at h
      simp only [Except.ok.injEq] at h
      exact ⟨co, rfl, h.symm⟩

theorem stageAssocData_preserves (career degree : String) (cd : JValue) (pd pd' : JObj)
    (h : stageAssocData career degree cd pd = .ok pd') (k : String) (hk : k ≠ "associates") :
    jlookup pd' k = jlookup pd k := by
  obtain ⟨co, _, hpd⟩ := stageAssocData_spec career degree cd pd pd' h
  rw [hpd, jlookup_jset_ne _ _ _ _ hk]

theorem stageBach_preserves (career degree : String) (cd : JValue) (pd pd' : JObj)
    (h : stageBach career degree cd pd = .ok pd') (k : String) (hk : k ≠ "bachelors") :
    jlookup pd' k = jlookup pd k := by
  unfold stageBach at h
  simp only [bind, Except.bind, pure, Except.pure] at h
  repeat' split at h
  any_goals exact Except.noConfusion h
  all_goals simp only [Except.ok.injEq] at h
  all_goals rw [← h]
  all_goals simp [jlookup_jset_ne _ _ _ _ hk]

theorem stageBach_hasKey (career degree : String) (cd : JValue) (pd pd' : JObj)
    (h : stageBach career degree cd pd = .ok pd') :
    hasKey pd' "bachelors" = (degree == "bachelor" || hasKey pd "bachelors") := by
  unfold stageBach at h
  simp only [bind, Except.bind, pure, Except.pure] at h
  repeat' split at h
  any_goals exact Except.noConfusion h
  all_goals simp only [Except.ok.injEq] at h
  all_goals subst h
  all_goals simp_all [hasKey_jset_self]

theorem jlookup_setIf {c : Prop} [Decidable c] (q : JObj) (key : String) (v : JValue)
    (k : String) (hk : k ≠ key) :
    jlookup (if c then jset q key v else q) k = jlookup q k := by
  split
  · exact jlookup_jset_ne _ _ _ _ hk
  · rfl

theorem hasKey_setIf {c : Prop} [Decidable c] (q : JObj) (key : String) (v : JValue)
    (k : String) (hk : k ≠ key) :
    hasKey (if c then jset q key v else q) k = hasKey q k := by
  split
  · exact hasKey_jset_ne _ _ _ _ hk
  · rfl

theorem jlookup_ensure (q : JObj) (key : String) (v : JValue) :
    jlookup (if (!hasKey q key) = true then jset q key v else q) key
      = some ((jlookup q key).getD v) := by
  by_cases hc : hasKey q key
  · obtain ⟨w, hw⟩ := Option.isSome_iff_exists.mp hc
    rw [if_neg (by simp [hc]), hw]
    rfl
  · have hb : jlookup q key = none := Option.not_isSome_iff_eq_none.mp (by simpa [hasKey] using hc)
    have hb' : hasKey q key = false := by simp [hasKey, hb]
    rw [if_pos (by simp [hb']), jlookup_jset_self, hb]
    rfl

theorem stageIdent_preserves (career degree : String) (pd : JObj) (k : String)
    (h1 : k ≠ "career") (h2 : k ≠ "degreeLevel") (h3 : k ≠ "note") :
    jlookup (stageIdent career degree pd) k = jlookup pd k := by
  unfold stageIdent
  rw [jlookup_setIf _ _ _ _ h3, jlookup_setIf _ _ _ _ h2, jlookup_setIf _ _ _ _ h1]

theorem stageIdent_career (career degree : String) (pd : JObj) :
    jlookup (stageIdent career degree pd) "career"
      = some ((jlookup pd "career").getD (.str career)) := by
  unfold stageIdent
  rw [jlookup_setIf _ _ _ _ (show ("career" : String) ≠ "note" by decide),
      jlookup_setIf _ _ _ _ (show ("career" : String) ≠ "degreeLevel" by decide),
      jlookup_ensure]

theorem stageIdent_degree (career degree : String) (pd : JObj) :
    jlookup (stageIdent career degree pd) "degreeLevel"
      = some ((jlookup pd "degreeLevel").getD (.str degree)) := by
  unfold stageIdent
  rw [jlookup_setIf _ _ _ _ (show ("degreeLevel" : String) ≠ "note" by decide),
      jlookup_ensure, jlookup_setIf _ _ _ _ (show ("degreeLevel" : String) ≠ "career" by decide)]

theorem stageCreds_preserves (cd : JValue) (pd pd' : JObj)
    (h : stageCreds cd pd = .ok pd') (k : String)
    (hk1 : k ≠ "certifications") (hk2 : k ≠ "clubs") :
    jlookup pd' k = jlookup pd k := by
  unfold stageCreds at h
  simp only [bind, Except.bind, pure, Except.pure] at h
  repeat' split at h
  any_goals exact Except.noConfusion h
  all_goals simp only [Except.ok.injEq] at h
  all_goals rw [← h]
  all_goals simp [jlookup_jset_ne _ _ _ _ hk1, jlookup_jset_ne _ _ _ _ hk2]

theorem stageTail_preserves (career : String) (pd : JObj) (k : String)
    (hk1 : k ≠ "internships") (hk2 : k ≠ "associates") :
    jlookup (stageTail career pd) k = jlookup pd k := by
  unfold stageTail
  rw [jlookup_setIf _ _ _ _ hk2, jlookup_setIf _ _ _ _ hk1]

theorem stageTail_assoc_obj (career : String) (pd : JObj) (a : JObj)
    (hA : jlookup pd "associates" = some (.obj a)) :
    jlookup (stageTail career pd) "associates" = some (.obj a) := by
  unfold stageTail
  have hne : ("associates" : String) ≠ "internships" := by decide
  generalize hY : (if (!hasKey pd "internships") = true then
      jset pd "internships" (JValue.list []) else pd) = Y
  have hq : jlookup Y "associates" = some (.obj a) := by
    rw [← hY, jlookup_setIf _ _ _ _ hne]
    exact hA
  have hcond : ¬ ((!hasKey Y "associates" || !isObj (jget Y "associates")) = true) := by
    simp [hasKey, jget, hq, isObj]
  rw [if_neg hcond]
  exact hq

/-- Destructuring of a successful merge into its stage results. -/
theorem mergeResults_destruct (career degree : String) (p c x : JValue) (d : JObj)
    (h : mergeResults career degree p c x = .ok d) :
    ∃ pdA pdB pdC,
      stageAssocData career degree c (stageAssoc career (ensureDict p)) = .ok pdA ∧
      stageBach career degree c pdA = .ok pdB ∧
      stageCreds x (stageIdent career degree pdB) = .ok pdC ∧
      d = stageTail career pdC := by
  unfold mergeResults at h
  simp only [bind, Except.bind, pure, Except.pure] at h
  cases hA : stageAssocData career degree c (stageAssoc career (ensureDict p)) with
  | error e => simp only [hA] at h; exact Except.noConfusion h
  | ok pdA =>
      simp only [hA] at h
      cases hB : stageBach career degree c pdA with
      | error e => simp only [hB] at h; exact Except.noConfusion h
      | ok pdB =>
          simp only [hB] at h
          cases hC : stageCreds x (stageIdent career degree pdB) with
          | error e => simp only [hC] at h; exact Except.noConfusion h
          | ok pdC =>
              simp only [hC, Except.ok.injEq] at h
              exact ⟨pdA, pdB, pdC, rfl, hB, hC, h.symm⟩

theorem stageAssoc_preserves (career : String) (pd : JObj) (k : String)
    (hk : k ≠ "associates") :
    jlookup (stageAssoc career pd) k = jlookup pd k := by
  unfold stageAssoc
  rw [jlookup_setIf _ _ _ _ hk, jlookup_setIf _ _ _ _ hk]

theorem isEmpty_false_of_ne_nil {α : Type} (l : List α) (h : l ≠ []) :
    l.isEmpty = false := by
  cases l <;> simp_all

theorem jlookup_pair_entry (v m : List JValue) :
    jlookup [("entryLevel", JValue.list v), ("midCareer", JValue.list m)] "entryLevel"
      = some (.list v) := rfl

/-! ## Document checkers used to state the claims -/

/-- The `associates` key is present and bound to a non-empty record. -/
def assocRecordCheck (d : JObj) : Bool :=
  match jlookup d "associates" with
  | some (.obj a) => !a.isEmpty
  | _ => false

/-- `associates.careerOutcomes.entryLevel` is present and a non-empty list. -/
def entryNonemptyCheck (d : JObj) : Bool :=
  match jlookup d "associates" with
  | some (.obj a) =>
      match jlookup a "careerOutcomes" with
      | some (.obj co) =>
          match jlookup co "entryLevel" with
          | some (.list v) => !v.isEmpty
          | _ => false
      | _ => false
  | _ => false

theorem entryNonemptyCheck_of_shape (d : JObj) (a : JObj) (co : JValue)
    (hA : jlookup d "associates" = some (.obj (jset a "careerOutcomes" co)))
    (hco : ∃ career, co = fallbackOutcomesAssoc career
      ∨ ∃ v m, co = .obj [("entryLevel", .list v), ("midCareer", .list m)] ∧ v ≠ []) :
    entryNonemptyCheck d = true := by
  unfold entryNonemptyCheck
  rw [hA]
  simp only [jlookup_jset_self]
  obtain ⟨career, hfb | ⟨v, m, hvm, hv⟩⟩ := hco
  · subst hfb
    rfl
  · subst hvm
    simp only [jlookup_pair_entry]
    simpa using isEmpty_false_of_ne_nil v hv


/-! ## Claim theorems on the merge -/

/-- C5: for every request and every combination of task payloads (hence
every subset of task successes, each failure standing in through its
fallback payload), a document produced by the merge carries an `associates`
key bound to a non-empty record. -/
theorem merge_assocRecordCheck (career degree : String) (p c x : JValue) (d : JObj)
    (h : mergeResults career degree p c x = .ok d) :
    assocRecordCheck d = true := by
  obtain ⟨pdA, pdB, pdC, hA, hB, hC, hd⟩ := mergeResults_destruct career degree p c x d h
  obtain ⟨co, hco, hpdA⟩ := stageAssocData_spec career degree c _ pdA hA
  set a0 : JObj := jset (match jlookup (stageAssoc career (ensureDict p)) "associates" with
      | some (JValue.obj a) => a
      | _ => []) "financial" (jgetD (getStaticFinancialData degree) "associates" finAssoc)
    with ha0
  have hAssocA : jlookup pdA "associates" = some (.obj (jset a0 "careerOutcomes" co)) := by
    rw [hpdA]
    exact jlookup_jset_self _ _ _
  have h1 : jlookup pdB "associates" = some (.obj (jset a0 "careerOutcomes" co)) := by
    rw [stageBach_preserves career degree c pdA pdB hB _ (by decide)]
    exact hAssocA
  have h2 : jlookup (stageIdent career degree pdB) "associates"
      = some (.obj (jset a0 "careerOutcomes" co)) := by
    rw [stageIdent_preserves career degree pdB _ (by decide) (by decide) (by decide)]
    exact h1
  have h3 : jlookup pdC "associates" = some (.obj (jset a0 "careerOutcomes" co)) := by
    rw [stageCreds_preserves x _ pdC hC _ (by decide) (by decide)]
    exact h2
  subst hd
  have h4 := stageTail_assoc_obj career pdC _ h3
  unfold assocRecordCheck
  rw [h4]
  simpa using isEmpty_false_of_ne_nil _ (jset_ne_nil a0 "careerOutcomes" co)

/-- Witness document for C5: the merge of three `None` payloads. -/
def c5doc : JObj :=
  (mergeResults "Welder" "associate" .null .null .null).toOption.getD []

/-- C5: for all valid requests and every subset of task successes (failed
tasks standing in through their fallback payloads, successful ones free to
return any value), every document the merge yields has `associates` present,
non-empty and a record. -/
theorem c5_associates_always_record (career degree : String) (p c x : JValue) (d : JObj)
    (h : mergeResults career degree p c x = .ok d) :
    assocRecordCheck d = true :=
  merge_assocRecordCheck career degree p c x d h

theorem c5_witness : assocRecordCheck c5doc = true :=
  c5_associates_always_record "Welder" "associate" .null .null .null c5doc (by rfl)

/-- C10: in every document the merge produces, the associate tier's
`careerOutcomes.entryLevel` list is present and non-empty — every branch of
the merge either keeps at least one validated title or installs the
fallback pair. -/
theorem merge_entryNonempty (career degree : String) (p c x : JValue) (d : JObj)
    (h : mergeResults career degree p c x = .ok d) :
    entryNonemptyCheck d = true := by
  obtain ⟨pdA, pdB, pdC, hA, hB, hC, hd⟩ := mergeResults_destruct career degree p c x d h
  obtain ⟨co, hco, hpdA⟩ := stageAssocData_spec career degree c _ pdA hA
  have hshape := computeOutcomes_shape _ _ _ _ _ hco
  set a0 : JObj := jset (match jlookup (stageAssoc career (ensureDict p)) "associates" with
      | some (JValue.obj a) => a
      | _ => []) "financial" (jgetD (getStaticFinancialData degree) "associates" finAssoc)
    with ha0
  have hAssocA : jlookup pdA "associates" = some (.obj (jset a0 "careerOutcomes" co)) := by
    rw [hpdA]
    exact jlookup_jset_self _ _ _
  have h1 : jlookup pdB "associates" = some (.obj (jset a0 "careerOutcomes" co)) := by
    rw [stageBach_preserves career degree c pdA pdB hB _ (by decide)]
    exact hAssocA
  have h2 : jlookup (stageIdent career degree pdB) "associates"
      = some (.obj (jset a0 "careerOutcomes" co)) := by
    rw [stageIdent_preserves career degree pdB _ (by decide) (by decide) (by decide)]
    exact h1
  have h3 : jlookup pdC "associates" = some (.obj (jset a0 "careerOutcomes" co)) := by
    rw [stageCreds_preserves x _ pdC hC _ (by decide) (by decide)]
    exact h2
  subst hd
  exact entryNonemptyCheck_of_shape _ _ _ (stageTail_assoc_obj career pdC _ h3)
    ⟨career, hshape⟩

/-- Witness document for C10. -/
def c10doc : JObj :=
  (mergeResults "Nurse" "associate" .null .null .null).toOption.getD []

/-- C10: in every merged document, `associates.careerOutcomes` is present
and its `entryLevel` list is non-empty: every merge branch keeps at least
one validated title or installs the fallback pair. -/
theorem c10_entry_level_nonempty (career degree : String) (p c x : JValue) (d : JObj)
    (h : mergeResults career degree p c x = .ok d) :
    entryNonemptyCheck d = true :=
  merge_entryNonempty career degree p c x d h

theorem c10_witness : entryNonemptyCheck c10doc = true :=
  c10_entry_level_nonempty "Nurse" "associate" .null .null .null c10doc (by rfl)

/-- C2 (amended): a merged document has a `bachelors` key exactly when the
request is bachelor-level or the structure-stage payload (the task's output,
or the handler fallback substituted for a failed task, which for associate
requests itself carries a null-valued `bachelors` key) already had one. -/
theorem merge_hasKey_bachelors (career degree : String) (p c x : JValue) (d : JObj)
    (h : mergeResults career degree p c x = .ok d) :
    hasKey d "bachelors" = (degree == "bachelor" || hasKey (ensureDict p) "bachelors") := by
  obtain ⟨pdA, pdB, pdC, hA, hB, hC, hd⟩ := mergeResults_destruct career degree p c x d h
  subst hd
  have t1 : jlookup (stageTail career pdC) "bachelors" = jlookup pdC "bachelors" :=
    stageTail_preserves career pdC _ (by decide) (by decide)
  have t2 : jlookup pdC "bachelors" = jlookup (stageIdent career degree pdB) "bachelors" :=
    stageCreds_preserves x _ pdC hC _ (by decide) (by decide)
  have t3 : jlookup (stageIdent career degree pdB) "bachelors" = jlookup pdB "bachelors" :=
    stageIdent_preserves career degree pdB _ (by decide) (by decide) (by decide)
  have t4 : hasKey pdB "bachelors" = (degree == "bachelor" || hasKey pdA "bachelors") :=
    stageBach_hasKey career degree c pdA pdB hB
  have t5 : jlookup pdA "bachelors" = jlookup (stageAssoc career (ensureDict p)) "bachelors" :=
    stageAssocData_preserves career degree c _ pdA hA _ (by decide)
  have t6 : jlookup (stageAssoc career (ensureDict p)) "bachelors"
      = jlookup (ensureDict p) "bachelors" :=
    stageAssoc_preserves career (ensureDict p) _ (by decide)
  unfold hasKey at t4 ⊢
  rw [t1, t2, t3, t4, t5, t6]

/-- Witness document for C2. -/
def c2doc : JObj :=
  (mergeResults "Welder" "associate" (structFallbackHandler "Welder" "associate")
    .null .null).toOption.getD []

/-- C2 (amended): `bachelors` is present in the merged document iff the
request is bachelor-level or the structure-stage payload already carried the
key; the handler fallback substituted for a timed-out structure task itself
carries a null-valued `bachelors` key for associate requests, so such
requests do end up with the key present. -/
theorem c2_bachelors_presence (career degree : String) (p c x : JValue) (d : JObj)
    (h : mergeResults career degree p c x = .ok d) :
    hasKey d "bachelors" = (degree == "bachelor" || hasKey (ensureDict p) "bachelors") :=
  merge_hasKey_bachelors career degree p c x d h

theorem c2_witness :
    hasKey c2doc "bachelors"
      = (("associate" == "bachelor")
          || hasKey (ensureDict (structFallbackHandler "Welder" "associate")) "bachelors") :=
  c2_bachelors_presence "Welder" "associate" (structFallbackHandler "Welder" "associate")
    .null .null c2doc (by rfl)

/-- C2 counterexample to the claim as stated: an associate-level request
whose structure task timed out at the orchestrator (so the handler's inline
fallback is merged) yields a document in which the `bachelors` key is
present, bound to `None`. -/
theorem c2_counterexample :
    (lambdaHandler "Welder" "associate" none .failed .failed .failed).pathway.map
      (fun d => jlookup d "bachelors") = some (some .null) := by rfl

/-- C4 (amended): the merged document's `career` and `degreeLevel` fields
come from the request only when the structure-stage payload did not itself
carry them; a payload value for either key is kept unchanged. -/
theorem merge_career_fields (career degree : String) (p c x : JValue) (d : JObj)
    (h : mergeResults career degree p c x = .ok d) :
    jlookup d "career" = some ((jlookup (ensureDict p) "career").getD (.str career)) ∧
    jlookup d "degreeLevel" = some ((jlookup (ensureDict p) "degreeLevel").getD (.str degree)) := by
  obtain ⟨pdA, pdB, pdC, hA, hB, hC, hd⟩ := mergeResults_destruct career degree p c x d h
  subst hd
  constructor
  · rw [stageTail_preserves career pdC _ (by decide) (by decide),
      stageCreds_preserves x _ pdC hC _ (by decide) (by decide),
      stageIdent_career career degree pdB,
      stageBach_preserves career degree c pdA pdB hB _ (by decide),
      stageAssocData_preserves career degree c _ pdA hA _ (by decide),
      stageAssoc_preserves career (ensureDict p) _ (by decide)]
  · rw [stageTail_preserves career pdC _ (by decide) (by decide),
      stageCreds_preserves x _ pdC hC _ (by decide) (by decide),
      stageIdent_degree career degree pdB,
      stageBach_preserves career degree c pdA pdB hB _ (by decide),
      stageAssocData_preserves career degree c _ pdA hA _ (by decide),
      stageAssoc_preserves career (ensureDict p) _ (by decide)]

/-- Witness document for C4. -/
def c4doc : JObj :=
  (mergeResults "Welder" "associate" (.obj [("career", .str "Auditor")])
    .null .null).toOption.getD []

/-- C4 (amended): merged `career`/`degreeLevel` equal the request values
only when the structure-stage payload did not supply them; otherwise the
payload values are kept. -/
theorem c4_career_fields (career degree : String) (p c x : JValue) (d : JObj)
    (h : mergeResults career degree p c x = .ok d) :
    jlookup d "career" = some ((jlookup (ensureDict p) "career").getD (.str career)) ∧
    jlookup d "degreeLevel" = some ((jlookup (ensureDict p) "degreeLevel").getD (.str degree)) :=
  merge_career_fields career degree p c x d h

theorem c4_witness :
    jlookup c4doc "career"
        = some ((jlookup (ensureDict (.obj [("career", .str "Auditor")])) "career").getD
            (.str "Welder")) ∧
    jlookup c4doc "degreeLevel"
        = some ((jlookup (ensureDict (.obj [("career", .str "Auditor")])) "degreeLevel").getD
            (.str "associate")) :=
  c4_career_fields "Welder" "associate" (.obj [("career", .str "Auditor")]) .null .null
    c4doc (by rfl)

/-- C4 counterexample to the claim as stated: a structure payload carrying
its own `career` value wins over the request's (`Auditor` vs `Welder`). -/
theorem c4_counterexample :
    (lambdaHandler "Welder" "associate" none (.ok (.obj [("career", .str "Auditor")]))
      .failed .failed).pathway.map (fun d => jlookup d "career")
      = some (some (.str "Auditor")) := by rfl

/-- C1: with the structure task failed (its fallback seeds
`certifications: []` and `exams: []`) and the credentials task failed, the
merged document still carries both keys bound to empty lists — the merge's
final `certifications`/`exams` branches are `pass` statements, so the
omission invariant the spec states (and the comments at lines 1303-1311
assume) is not enforced on the fallback path. -/
theorem c1_empty_cred_lists_survive :
    (lambdaHandler "Welder" "associate" none .failed .failed .failed).pathway.map
      (fun d => (jlookup d "certifications", jlookup d "exams"))
      = some (some (.list []), some (.list [])) := by rfl

/-- C3 test payload: the outcomes task returns only the denylisted
placeholder title at both tiers. -/
def c3Payload : JValue :=
  .obj [("associates", .obj [("careerOutcomes", .obj
          [("entryLevel", .list [.obj [("title", .str "Entry-Level Position"),
                                       ("salary", .str "30000")]]),
           ("midCareer", .list [])])]),
        ("bachelors", .obj [("careerOutcomes", .obj
          [("entryLevel", .list [.obj [("title", .str "Entry-Level Position"),
                                       ("salary", .str "30000")]]),
           ("midCareer", .list [])])])]

/-- C3: the associate tier replaces a placeholder-only entry-level list with
the deterministic fallback, as the claim states; but at the bachelor tier of
a bachelor-level request the mis-parenthesised filter of line 1218
(`A and B and C or D`) lets `Entry-Level Position` through, so the
placeholder survives instead of being replaced. -/
theorem c3_bachelor_placeholder_kept :
    (lambdaHandler "Welder" "bachelor" none .failed (.ok c3Payload) .failed).pathway.map
      (fun d =>
        ((match jlookup d "bachelors" with
          | some (.obj b) => jlookup b "careerOutcomes"
          | _ => none),
         (match jlookup d "associates" with
          | some (.obj a) => jlookup a "careerOutcomes"
          | _ => none)))
      = some
          (some (.obj [("entryLevel", .list [.obj [("title", .str "Entry-Level Position"),
                                                   ("salary", .str "30000")]]),
                       ("midCareer", .list [])]),
           some (fallbackOutcomesAssoc "Welder")) := by rfl

/-- C7: a request whose career is empty after stripping is rejected with a
400 response before any task runs, and nothing is written to the cache. -/
theorem c7_invalid_request_rejected (careerRaw degreeRaw : String) (cache : Option JObj)
    (s o c : TaskOutcome) (h : pyStrip careerRaw = "") :
    (lambdaHandler careerRaw degreeRaw cache s o c).statusCode = 400 ∧
    (lambdaHandler careerRaw degreeRaw cache s o c).ranTasks = false ∧
    (lambdaHandler careerRaw degreeRaw cache s o c).wroteCache = false := by
  unfold lambdaHandler
  simp [h]

theorem c7_witness :
    pyStrip "   " = "" ∧
    ((lambdaHandler "   " "associate" none .failed .failed .failed).statusCode = 400 ∧
     (lambdaHandler "   " "associate" none .failed .failed .failed).ranTasks = false ∧
     (lambdaHandler "   " "associate" none .failed .failed .failed).wroteCache = false) :=
  ⟨by rfl, c7_invalid_request_rejected "   " "associate" none .failed .failed .failed (by rfl)⟩

/-! ## Totality lemmas used for the all-tasks-failed scenario -/

theorem entryTitleOkA_str (fs : JObj) (t : String) (h : jlookup fs "title" = some (.str t)) :
    ∃ b, entryTitleOkA (.obj fs) = .ok b := by
  unfold entryTitleOkA
  rw [show pyGet (.obj fs) "title" = .ok (.str t) by simp [pyGet, jget, h]]
  simp only [bind, Except.bind, pure, Except.pure]
  split
  · exact ⟨false, rfl⟩
  · exact ⟨_, rfl⟩

theorem midTitleOk_str (fs : JObj) (t : String) (h : jlookup fs "title" = some (.str t)) :
    ∃ b, midTitleOk (.obj fs) = .ok b := by
  unfold midTitleOk
  rw [show pyGet (.obj fs) "title" = .ok (.str t) by simp [pyGet, jget, h]]
  simp only [bind, Except.bind, pure, Except.pure]
  split
  · exact ⟨false, rfl⟩
  · exact ⟨_, rfl⟩

theorem entryTitleOkBBuggy_str (fs : JObj) (t : String)
    (h : jlookup fs "title" = some (.str t)) :
    ∃ b, entryTitleOkBBuggy (.obj fs) = .ok b := by
  unfold entryTitleOkBBuggy
  dsimp only
  rw [h]
  dsimp only
  split
  · exact ⟨true, rfl⟩
  · exact ⟨_, rfl⟩

theorem computeOutcomes_fbA (fb : JValue) (c' : String) :
    ∃ co, computeOutcomes "associates" entryTitleOkA fb (outcomesFallback c') = .ok co := by
  obtain ⟨b1, hb1⟩ := entryTitleOkA_str
    [("title", .str (c' ++ " Assistant")), ("salary", .str "35000-45000")] _ rfl
  obtain ⟨b2, hb2⟩ := midTitleOk_str
    [("title", .str (c' ++ " Specialist")), ("salary", .str "50000-70000")] _ rfl
  cases b1 <;> cases b2 <;>
    · unfold computeOutcomes
      simp [outcomesFallback, fallbackOutcomesAssoc, fallbackOutcomesBach, truthy, isObj,
        asObj, hasKey, jlookup, jget, pyIn, pyIndex, pyGet, pyLen, pyIter, filterE,
        bind, Except.bind, pure, Except.pure, hb1, hb2]

theorem computeOutcomes_fbB (fb : JValue) (c' : String) :
    ∃ co, computeOutcomes "bachelors" entryTitleOkBBuggy fb (outcomesFallback c') = .ok co := by
  obtain ⟨b1, hb1⟩ := entryTitleOkBBuggy_str
    [("title", .str (c' ++ " Professional")), ("salary", .str "55000-70000")] _ rfl
  obtain ⟨b2, hb2⟩ := midTitleOk_str
    [("title", .str ("Senior " ++ c')), ("salary", .str "75000-110000")] _ rfl
  cases b1 <;> cases b2 <;>
    · unfold computeOutcomes
      simp [outcomesFallback, fallbackOutcomesAssoc, fallbackOutcomesBach, truthy, isObj,
        asObj, hasKey, jlookup, jget, pyIn, pyIndex, pyGet, pyLen, pyIter, filterE,
        bind, Except.bind, pure, Except.pure, hb1, hb2]

theorem stageAssocData_eval (career degree : String) (cd : JValue) (pd : JObj) (co : JValue)
    (hco : computeOutcomes "associates" entryTitleOkA (fallbackOutcomesAssoc career) cd
      = .ok co) :
    ∃ pdA, stageAssocData career degree cd pd = .ok pdA := by
  unfold stageAssocData
  simp only [bind, Except.bind, pure, Except.pure, hco]
  exact ⟨_, rfl⟩

theorem stageBach_eval_bachelor (career degree : String) (cd : JValue) (pd : JObj) (co : JValue)
    (hdeg : (degree == "bachelor") = true)
    (hco : computeOutcomes "bachelors" entryTitleOkBBuggy (fallbackOutcomesBach career) cd
      = .ok co) :
    ∃ pdB, stageBach career degree cd pd = .ok pdB := by
  unfold stageBach
  rw [if_pos hdeg]
  simp only [bind, Except.bind, pure, Except.pure, hco]
  exact ⟨_, rfl⟩

theorem stageBach_nokey (career degree : String) (cd : JValue) (pd : JObj)
    (hdeg : (degree == "bachelor") = false)
    (hkey : hasKey pd "bachelors" = false) :
    stageBach career degree cd pd = .ok pd := by
  unfold stageBach
  rw [if_neg (by simp [hdeg]), if_neg (by simp [hkey])]

theorem stageBach_falsy (career degree : String) (cd : JValue) (pd : JObj)
    (hdeg : (degree == "bachelor") = false)
    (hval : jlookup pd "bachelors" = some .null) :
    stageBach career degree cd pd = .ok pd := by
  unfold stageBach
  rw [if_neg (by simp [hdeg]), if_neg (by simp [hasKey, jget, hval, truthy])]

theorem stageCreds_fb_internal (pd : JObj) : stageCreds credsFallbackInternal pd = .ok pd := by
  unfold stageCreds credsFallbackInternal
  simp [bind, Except.bind, pure, Except.pure, truthy, isObj, asObj, jget, jlookup, hasKey]

theorem stageCreds_fb_handler (pd : JObj) : stageCreds credsFallbackHandler pd = .ok pd := by
  unfold stageCreds credsFallbackHandler
  simp [bind, Except.bind, pure, Except.pure, truthy, isObj, asObj, jget, jlookup, hasKey]

theorem cannedNote_truthy (career : String) : truthy (.str (cannedNote career)) = true := by
  unfold truthy cannedNote
  simp only [bne_iff_ne, ne_eq, decide_eq_true_eq]
  intro hcontra
  have := congrArg String.data hcontra
  simp [String.data_append] at this

theorem jlookup_note_ensure (q : JObj) (career : String) :
    ∃ v, jlookup (if (!hasKey q "note" || !truthy (jget q "note")) = true then
      jset q "note" (.str (cannedNote career)) else q) "note" = some v ∧ truthy v = true := by
  by_cases hcond : (!hasKey q "note" || !truthy (jget q "note")) = true
  · rw [if_pos hcond]
    exact ⟨_, jlookup_jset_self _ _ _, cannedNote_truthy career⟩
  · rw [if_neg hcond]
    have h1 : hasKey q "note" = true := by
      rcases Bool.eq_false_or_eq_true (hasKey q "note") with hb | hb
      · exact hb
      · exact absurd (by simp [hb]) hcond
    have h2 : truthy (jget q "note") = true := by
      rcases Bool.eq_false_or_eq_true (truthy (jget q "note")) with hb | hb
      · exact hb
      · exact absurd (by simp [hb]) hcond
    obtain ⟨w, hw⟩ := Option.isSome_iff_exists.mp (by simpa [hasKey] using h1)
    refine ⟨w, hw, ?_⟩
    have hjw : jget q "note" = w := by simp [jget, hw]
    rw [hjw] at h2
    exact h2

theorem stageIdent_note (career degree : String) (pd : JObj) :
    ∃ v, jlookup (stageIdent career degree pd) "note" = some v ∧ truthy v = true := by
  unfold stageIdent
  exact jlookup_note_ensure _ career

theorem merge_note (career degree : String) (p c x : JValue) (d : JObj)
    (h : mergeResults career degree p c x = .ok d) :
    ∃ v, jlookup d "note" = some v ∧ truthy v = true := by
  obtain ⟨pdA, pdB, pdC, hA, hB, hC, hd⟩ := mergeResults_destruct career degree p c x d h
  subst hd
  obtain ⟨v, hv, htv⟩ := stageIdent_note career degree pdB
  refine ⟨v, ?_, htv⟩
  rw [stageTail_preserves career pdC _ (by decide) (by decide),
    stageCreds_preserves x _ pdC hC _ (by decide) (by decide)]
  exact hv

theorem stageTail_internships (career : String) (pd : JObj) :
    hasKey (stageTail career pd) "internships" = true := by
  unfold stageTail
  rw [hasKey_setIf _ _ _ _ (show ("internships" : String) ≠ "associates" by decide)]
  split
  · exact hasKey_jset_self _ _ _
  · next hcond => simpa using hcond

theorem merge_internships (career degree : String) (p c x : JValue) (d : JObj)
    (h : mergeResults career degree p c x = .ok d) :
    hasKey d "internships" = true := by
  obtain ⟨pdA, pdB, pdC, hA, hB, hC, hd⟩ := mergeResults_destruct career degree p c x d h
  subst hd
  exact stageTail_internships career pdC

theorem stageBach_bachelor_spec (career degree : String) (cd : JValue) (pd pdB : JObj)
    (hdeg : (degree == "bachelor") = true)
    (h : stageBach career degree cd pd = .ok pdB) :
    ∃ b0 co, jlookup pdB "bachelors" = some (.obj (jset b0 "careerOutcomes" co)) := by
  unfold stageBach at h
  rw [if_pos hdeg] at h
  simp only [bind, Except.bind, pure, Except.pure] at h
  cases hco : computeOutcomes "bachelors" entryTitleOkBBuggy (fallbackOutcomesBach career) cd with
  | error e => simp only [hco] at h; exact Except.noConfusion h
  | ok co =>
      simp only [hco, Except.ok.injEq] at h
      subst h
      exact ⟨_, co, jlookup_jset_self _ _ _⟩

theorem merge_bachelors_obj (career degree : String) (p c x : JValue) (d : JObj)
    (hdeg : (degree == "bachelor") = true)
    (h : mergeResults career degree p c x = .ok d) :
    ∃ bb, jlookup d "bachelors" = some (.obj bb) ∧ bb ≠ [] := by
  obtain ⟨pdA, pdB, pdC, hA, hB, hC, hd⟩ := mergeResults_destruct career degree p c x d h
  subst hd
  obtain ⟨b0, co, hBv⟩ := stageBach_bachelor_spec career degree c pdA pdB hdeg hB
  refine ⟨jset b0 "careerOutcomes" co, ?_, jset_ne_nil _ _ _⟩
  rw [stageTail_preserves career pdC _ (by decide) (by decide),
    stageCreds_preserves x _ pdC hC _ (by decide) (by decide),
    stageIdent_preserves career degree pdB _ (by decide) (by decide) (by decide)]
  exact hBv

theorem fb_internal_career (career degree : String) :
    jlookup (ensureDict (structFallbackInternal career degree)) "career"
      = some (.str career) := by
  simp only [structFallbackInternal, ensureDict]
  split <;> rfl

theorem fb_handler_career (career degree : String) :
    jlookup (ensureDict (structFallbackHandler career degree)) "career"
      = some (.str career) := by
  rfl

theorem merge_fb_ok (career degree : String) (p x : JValue)
    (hp : p = structFallbackInternal career degree ∨ p = structFallbackHandler career degree)
    (hx : x = credsFallbackInternal ∨ x = credsFallbackHandler) :
    ∃ d, mergeResults career degree p (outcomesFallback career) x = .ok d := by
  obtain ⟨coA, hcoA⟩ := computeOutcomes_fbA (fallbackOutcomesAssoc career) career
  obtain ⟨pdA, hA⟩ := stageAssocData_eval career degree (outcomesFallback career)
    (stageAssoc career (ensureDict p)) coA hcoA
  have hB : ∃ pdB, stageBach career degree (outcomesFallback career) pdA = .ok pdB := by
    by_cases hdeg : (degree == "bachelor") = true
    · obtain ⟨coB, hcoB⟩ := computeOutcomes_fbB (fallbackOutcomesBach career) career
      exact stageBach_eval_bachelor career degree _ pdA coB hdeg hcoB
    · have hdeg' : (degree == "bachelor") = false := by simpa using hdeg
      have hpdA : jlookup pdA "bachelors" = jlookup (ensureDict p) "bachelors" := by
        rw [stageAssocData_preserves career degree _ _ pdA hA _ (by decide),
            stageAssoc_preserves career (ensureDict p) _ (by decide)]
      rcases hp with hp | hp
      · have hnone : jlookup (ensureDict p) "bachelors" = none := by
          subst hp
          simp only [structFallbackInternal, ensureDict]
          rw [if_neg (by simp [hdeg'])]
          rfl
        exact ⟨pdA, stageBach_nokey career degree _ pdA hdeg'
          (by simp [hasKey, hpdA, hnone])⟩
      · have hnull : jlookup (ensureDict p) "bachelors" = some .null := by
          subst hp
          simp only [structFallbackHandler, ensureDict]
          simp [jlookup, hdeg']
        exact ⟨pdA, stageBach_falsy career degree _ pdA hdeg' (by rw [hpdA]; exact hnull)⟩
  obtain ⟨pdB, hB⟩ := hB
  have hC : stageCreds x (stageIdent career degree pdB) = .ok (stageIdent career degree pdB) := by
    rcases hx with hx | hx <;> subst hx
    · exact stageCreds_fb_internal _
    · exact stageCreds_fb_handler _
  refine ⟨stageTail career (stageIdent career degree pdB), ?_⟩
  unfold mergeResults
  simp only [bind, Except.bind, pure, Except.pure, hA, hB, hC]

/-- Structural completeness of a pathway document: a non-empty `associates`
record, a truthy note, the request's career, a `degreeLevel`, an
`internships` key, and (for bachelor requests) a non-empty `bachelors`
record. -/
def completeDoc (career degree : String) (d : JObj) : Bool :=
  assocRecordCheck d
  && (match jlookup d "note" with | some v => truthy v | none => false)
  && (match jlookup d "career" with | some v => jeq v (.str career) | none => false)
  && hasKey d "degreeLevel"
  && hasKey d "internships"
  && (if degree == "bachelor" then
        (match jlookup d "bachelors" with | some (.obj b) => !b.isEmpty | _ => false)
      else true)

theorem merge_completeDoc (career degree : String) (p x : JValue) (d : JObj)
    (hp : p = structFallbackInternal career degree ∨ p = structFallbackHandler career degree)
    (h : mergeResults career degree p (outcomesFallback career) x = .ok d) :
    completeDoc career degree d = true := by
  have h1 := merge_assocRecordCheck career degree p _ x d h
  obtain ⟨v, hv, htv⟩ := merge_note career degree p _ x d h
  obtain ⟨hcar, hdeg⟩ := merge_career_fields career degree p _ x d h
  have hint := merge_internships career degree p _ x d h
  have hcarval : jlookup d "career" = some (.str career) := by
    rw [hcar]
    rcases hp with hp | hp <;> subst hp
    · rw [fb_internal_career]
      rfl
    · rw [fb_handler_career]
      rfl
  have hjeq : jeq (JValue.str career) (.str career) = true := by simp [jeq]
  have hdl : hasKey d "degreeLevel" = true := by simp [hasKey, hdeg]
  unfold completeDoc
  rw [h1, hv, hcarval, hint]
  by_cases hb : (degree == "bachelor") = true
  · obtain ⟨bb, hbb, hbne⟩ := merge_bachelors_obj career degree p _ x d hb h
    simp [htv, hjeq, hdl, hb, hbb, isEmpty_false_of_ne_nil _ hbne]
  · have hb' : (degree == "bachelor") = false := by simpa using hb
    simp [htv, hjeq, hdl, hb']

/-- C6: when all three generation tasks fail or time out — either inside the
task (so its own fallback payload is returned) or at the orchestrator level
(so the handler substitutes its inline fallback) — a valid request still
receives a 200 response carrying a complete, deterministically built
document; no task-level error reaches the caller. -/
theorem c6_all_failed_degrades_gracefully (careerRaw degreeRaw : String) (s o c : TaskOutcome)
    (hcareer : pyStrip careerRaw ≠ "")
    (hs : s = .ok (structFallbackInternal (pyStrip careerRaw) (pyStrip degreeRaw)) ∨ s = .failed)
    (ho : o = .ok (outcomesFallback (pyStrip careerRaw)) ∨ o = .failed)
    (hc : c = .ok credsFallbackInternal ∨ c = .failed) :
    (lambdaHandler careerRaw degreeRaw none s o c).statusCode = 200 ∧
    (lambdaHandler careerRaw degreeRaw none s o c).errorMsg = none ∧
    (match (lambdaHandler careerRaw degreeRaw none s o c).pathway with
     | some d => completeDoc (pyStrip careerRaw) (pyStrip degreeRaw) d
     | none => false) = true := by
  have hne : ¬ ((pyStrip careerRaw == "") = true) := by
    simpa using hcareer
  rcases hs with hs | hs <;> rcases ho with ho | ho <;> rcases hc with hc | hc <;>
    subst hs <;> subst ho <;> subst hc <;>
    · unfold lambdaHandler
      rw [if_neg hne]
      dsimp only
      first
        | (obtain ⟨d, hd⟩ := merge_fb_ok (pyStrip careerRaw) (pyStrip degreeRaw) _ _
            (Or.inl rfl) (Or.inl rfl)
           simp only [hd]
           refine ⟨by trivial, by trivial, ?_⟩
           exact merge_completeDoc _ _ _ _ d (Or.inl rfl) hd)
        | (obtain ⟨d, hd⟩ := merge_fb_ok (pyStrip careerRaw) (pyStrip degreeRaw) _ _
            (Or.inl rfl) (Or.inr rfl)
           simp only [hd]
           refine ⟨by trivial, by trivial, ?_⟩
           exact merge_completeDoc _ _ _ _ d (Or.inl rfl) hd)
        | (obtain ⟨d, hd⟩ := merge_fb_ok (pyStrip careerRaw) (pyStrip degreeRaw) _ _
            (Or.inr rfl) (Or.inl rfl)
           simp only [hd]
           refine ⟨by trivial, by trivial, ?_⟩
           exact merge_completeDoc _ _ _ _ d (Or.inr rfl) hd)
        | (obtain ⟨d, hd⟩ := merge_fb_ok (pyStrip careerRaw) (pyStrip degreeRaw) _ _
            (Or.inr rfl) (Or.inr rfl)
           simp only [hd]
           refine ⟨by trivial, by trivial, ?_⟩
           exact merge_completeDoc _ _ _ _ d (Or.inr rfl) hd)

theorem c6_witness :
    pyStrip "Welder" ≠ "" ∧
    ((lambdaHandler "Welder" "bachelor" none .failed .failed .failed).statusCode = 200 ∧
     (lambdaHandler "Welder" "bachelor" none .failed .failed .failed).errorMsg = none ∧
     (match (lambdaHandler "Welder" "bachelor" none .failed .failed .failed).pathway with
      | some d => completeDoc (pyStrip "Welder") (pyStrip "bachelor") d
      | none => false) = true) :=
  ⟨by decide,
   c6_all_failed_degrades_gracefully "Welder" "bachelor" .failed .failed .failed (by decide)
     (Or.inr rfl) (Or.inr rfl) (Or.inr rfl)⟩

/-! ## C8: credentials-task output provenance -/

theorem jeq_refl : ∀ v : JValue, jeq v v = true
  | .null => by simp [jeq]
  | .bool b => by simp [jeq]
  | .num n => by simp [jeq]
  | .str s => by simp [jeq]
  | .list [] => by simp [jeq]
  | .list (x :: xs) => by
      have h1 := jeq_refl x
      have h2 := jeq_refl (.list xs)
      simp [jeq, h1, h2]
  | .obj [] => by simp [jeq]
  | .obj ((k, x) :: xs) => by
      have h1 := jeq_refl x
      have h2 := jeq_refl (.obj xs)
      simp [jeq, h1, h2]

theorem filterE_mem {f : JValue → Except String Bool} :
    ∀ {l r : List JValue}, filterE f l = .ok r → ∀ y ∈ r, y ∈ l := by
  intro l
  induction l with
  | nil =>
      intro r h y hy
      simp only [filterE, Except.ok.injEq] at h
      subst h
      simp at hy
  | cons x xs ih =>
      intro r h y hy
      unfold filterE at h
      simp only [bind, Except.bind, pure, Except.pure] at h
      cases hb : f x with
      | error e => simp only [hb] at h; exact Except.noConfusion h
      | ok b =>
          simp only [hb] at h
          cases hrest : filterE f xs with
          | error e => simp only [hrest] at h; exact Except.noConfusion h
          | ok rest =>
              simp only [hrest, Except.ok.injEq] at h
              subst h
              cases b with
              | true =>
                  rcases List.mem_cons.mp hy with hy | hy
                  · exact List.mem_cons.mpr (Or.inl hy)
                  · exact List.mem_cons.mpr (Or.inr (ih hrest y hy))
              | false => exact List.mem_cons.mpr (Or.inr (ih hrest y hy))

theorem filterE_str_head (f : JValue → Except String Bool) (_s : String)
    (hf : ∀ t : String, ∃ e, f (.str t) = .error e) :
    ∀ {l r : List JValue}, (∀ y ∈ l, ∃ t, y = JValue.str t) → filterE f l = .ok r → l = [] := by
  intro l
  cases l with
  | nil => intro r _ _; rfl
  | cons x xs =>
      intro r hstr h
      obtain ⟨t, ht⟩ := hstr x (List.mem_cons_self x xs)
      subst ht
      obtain ⟨e, he⟩ := hf t
      unfold filterE at h
      simp only [bind, Except.bind, he] at h
      exact Except.noConfusion h

theorem rankedKeep_str (t : String) : ∃ e, rankedKeep (.str t) = .error e :=
  ⟨"AttributeError: no attribute get", rfl⟩

/-- The entries of the provider response a ranked list was drawn from. -/
def respEntries (resp : JValue) (key : String) : Option (List JValue) :=
  match resp with
  | .obj fs =>
      match jlookup fs key with
      | some (.list xs) => some xs
      | _ => none
  | _ => none

theorem ranked_spec (resp : JValue) (key : String) (fmt : JValue → JValue)
    (ranked : JValue → Except String (List JValue))
    (hranked : ranked = fun m => do
      let b ← pyIn key m
      if b then do
        let lst ← pyIndex m key
        let items ← pyIter lst
        let kept ← filterE rankedKeep items
        return ((kept.map fmt).take 5)
      else return [])
    (rc : List JValue) (h : ranked resp = .ok rc) :
    rc = [] ∨ ∃ es, respEntries resp key = some es ∧ rc.length ≤ 5 ∧
      ∀ y ∈ rc, ∃ e ∈ es, y = fmt e := by
  subst hranked
  simp only [bind, Except.bind, pure, Except.pure] at h
  cases hin : pyIn key resp with
  | error e => simp only [hin] at h; exact Except.noConfusion h
  | ok b =>
      simp only [hin] at h
      cases b with
      | false =>
          simp at h
          exact Or.inl h
      | true =>
          rw [if_pos rfl] at h
          cases hix : pyIndex resp key with
          | error e => simp only [hix] at h; exact Except.noConfusion h
          | ok lst =>
              simp only [hix] at h
              cases hit : pyIter lst with
              | error e => simp only [hit] at h; exact Except.noConfusion h
              | ok items =>
                  simp only [hit] at h
                  cases hk : filterE rankedKeep items with
                  | error e => simp only [hk] at h; exact Except.noConfusion h
                  | ok kept =>
                      simp only [hk, Except.ok.injEq] at h
                      subst h
                      obtain ⟨fs, hfs, hlk⟩ : ∃ fs, resp = JValue.obj fs ∧
                          jlookup fs key = some lst := by
                        cases resp with
                        | obj fs =>
                            unfold pyIndex at hix
                            dsimp only at hix
                            cases hl : jlookup fs key with
                            | none => rw [hl] at hix; exact Except.noConfusion hix
                            | some w =>
                                rw [hl] at hix
                                simp only [Except.ok.injEq] at hix
                                exact ⟨fs, rfl, by rw [hl, hix]⟩
                        | null => exact Except.noConfusion hix
                        | bool b2 => exact Except.noConfusion hix
                        | num n2 => exact Except.noConfusion hix
                        | str s2 => exact Except.noConfusion hix
                        | list l2 => exact Except.noConfusion hix
                      cases lst with
                      | list xs =>
                          refine Or.inr ⟨xs, ?_, ?_, ?_⟩
                          · simp [respEntries, hfs, hlk]
                          · simp
                          · intro y hy
                            have hy' := List.take_subset 5 _ hy
                            obtain ⟨e, he, hfe⟩ := List.mem_map.mp hy'
                            have hmem : e ∈ items := filterE_mem hk e he
                            have hxs : xs = items := by
                              simpa [pyIter] using hit
                            exact ⟨e, by rw [hxs]; exact hmem, hfe.symm⟩
                      | str s =>
                          have : items = [] := filterE_str_head rankedKeep s rankedKeep_str
                            (by
                              intro y hy
                              have hmap : List.map (fun ch => JValue.str (String.mk [ch]))
                                  s.data = items := by
                                simpa [pyIter] using hit
                              rw [← hmap] at hy
                              obtain ⟨ch, _, hch⟩ := List.mem_map.mp hy
                              exact ⟨String.mk [ch], hch.symm⟩) hk
                          subst this
                          have : kept = [] := by simpa [filterE] using hk
                          subst this
                          exact Or.inl rfl
                      | obj fs2 =>
                          have : items = [] := filterE_str_head rankedKeep "" rankedKeep_str
                            (by
                              intro y hy
                              have hmap : List.map (fun p => JValue.str p.1) fs2 = items := by
                                simpa [pyIter] using hit
                              rw [← hmap] at hy
                              obtain ⟨pr, _, hch⟩ := List.mem_map.mp hy
                              exact ⟨pr.1, hch.symm⟩) hk
                          subst this
                          have : kept = [] := by simpa [filterE] using hk
                          subst this
                          exact Or.inl rfl
                      | null => simp [pyIter] at hit
                      | bool b2 => simp [pyIter] at hit
                      | num n2 => simp [pyIter] at hit

theorem jlookup_pair_cc (a b : List JValue) :
    jlookup [("certifications", JValue.list a), ("clubs", JValue.list b)] "certifications"
      = some (.list a) ∧
    jlookup [("certifications", JValue.list a), ("clubs", JValue.list b)] "clubs"
      = some (.list b) := ⟨rfl, rfl⟩

/-- Checker for the amended C8 property: both output lists are cut to at
most 5 entries and every entry is the formatted image of some entry of the
corresponding list in the provider's response. -/
def outputsFromResponse (resp outVal : JValue) : Bool :=
  match outVal with
  | .obj o =>
      (match jlookup o "certifications" with
       | some (.list l) =>
           decide (l.length ≤ 5) && l.all (fun y =>
             match respEntries resp "certifications" with
             | some es => es.any (fun e => jeq y (fmtCert e))
             | none => false)
       | _ => false)
      && (match jlookup o "clubs" with
          | some (.list l) =>
              decide (l.length ≤ 5) && l.all (fun y =>
                match respEntries resp "clubs" with
                | some es => es.any (fun e => jeq y (fmtClub e))
                | none => false)
          | _ => false)
  | _ => false

theorem ranked_part_ok (resp : JValue) (key : String) (fmtF : JValue → JValue)
    (rc : List JValue)
    (hspec : rc = [] ∨ ∃ es, respEntries resp key = some es ∧ rc.length ≤ 5 ∧
      ∀ y ∈ rc, ∃ e ∈ es, y = fmtF e) :
    (decide (rc.length ≤ 5) && rc.all (fun y =>
      match respEntries resp key with
      | some es => es.any (fun e => jeq y (fmtF e))
      | none => false)) = true := by
  rcases hspec with h | ⟨es, hes, hlen, hmem⟩
  · subst h
    simp
  · rw [hes]
    simp only [Bool.and_eq_true, decide_eq_true_eq, List.all_eq_true]
    refine ⟨hlen, ?_⟩
    intro y hy
    obtain ⟨e, he, hye⟩ := hmem y hy
    subst hye
    simp only [List.any_eq_true]
    exact ⟨e, he, jeq_refl _⟩

/-- C8 (amended): whatever JSON the generative provider returns, the
credentials task emits at most 5 certifications and 5 clubs, each the
formatted image of an entry of the provider response itself; membership in
the knowledge lookup's candidate set is not checked anywhere. -/
theorem c8_output_drawn_from_response (career : String) (certStore clubStore : List JValue)
    (resp : JValue) :
    outputsFromResponse resp (matchCertifications career certStore clubStore resp) = true := by
  unfold matchCertifications
  dsimp only
  by_cases hemp : ((certCandidates career certStore).isEmpty
      && (clubCandidates career clubStore).isEmpty) = true
  · rw [if_pos hemp]
    rfl
  · rw [if_neg hemp]
    cases hrc : rankedCerts resp with
    | error e => rfl
    | ok rc =>
        have hspecC := ranked_spec resp "certifications" fmtCert rankedCerts rfl rc hrc
        have h1 := ranked_part_ok resp "certifications" fmtCert rc hspecC
        cases hrk : rankedClubs resp with
        | error e =>
            have h2 := ranked_part_ok resp "clubs" fmtClub [] (Or.inl rfl)
            show (decide (rc.length ≤ 5) && rc.all _ && _) = true
            rw [h1]
            simp only [Bool.true_and]
            exact h2
        | ok rk =>
            have hspecK := ranked_spec resp "clubs" fmtClub rankedClubs rfl rk hrk
            have h2 := ranked_part_ok resp "clubs" fmtClub rk hspecK
            show (decide (rc.length ≤ 5) && rc.all _ && _) = true
            rw [h1]
            simp only [Bool.true_and]
            exact h2

/-- Counterexample store for C8: one certification record whose text
matches the career keyword. -/
def c8Store : List JValue :=
  [.obj [("certificateName", .str "Certified Welder Program"),
         ("description", .str ""), ("pdfContent", .str "")]]

/-- Counterexample provider response for C8: it names a credential that the
knowledge lookup never returned. -/
def c8Resp : JValue :=
  .obj [("certifications", .list [.obj [("name", .str "Fabricated Credential"),
                                        ("relevance", .str "high")]])]

/-- C8 counterexample to the claim as stated: the candidate set the lookup
returns is exactly the one stored record, yet the task emits the provider's
fabricated credential — whose name matches no candidate — because no
membership check against the candidate set exists. -/
theorem c8_counterexample :
    certCandidates "Welder" c8Store = c8Store ∧
    matchCertifications "Welder" c8Store [] c8Resp
      = .obj [("certifications",
               .list [.obj [("name", .str "Fabricated Credential"),
                            ("required", .bool false)]]),
              ("clubs", .list [])] ∧
    (c8Store.all (fun i =>
      match i with
      | .obj f => !jeqStr (jget f "certificateName") "Fabricated Credential"
      | _ => true)) = true := ⟨rfl, rfl, rfl⟩

/-! ## C9: course-list truncation in the structure task -/

/-- The `keyCourses` field of a dict-valued tier, if any. -/
def kcField (pd : JObj) (tier : String) : Option JValue :=
  match jlookup pd tier with
  | some (.obj a) => jlookup a "keyCourses"
  | _ => none

/-- For one tier: if `keyCourses` is present as a list, it has at most 5
entries. -/
def tierKCBounded (pd : JObj) (tier : String) : Bool :=
  match kcField pd tier with
  | some (.list l) => decide (l.length ≤ 5)
  | _ => true

/-- The C9 conclusion on a produced payload: both tiers\x27 `keyCourses`
lists are bounded by 5 (a non-dict payload never arises from the task). -/
def keyCoursesBounded (v : JValue) : Bool :=
  match v with
  | .obj pd => tierKCBounded pd "associates" && tierKCBounded pd "bachelors"
  | _ => false

/-- Shape assumption on the provider payload for one tier: a `keyCourses`
field, when present in a dict-valued tier, is a list. -/
def tierShape (pd : JObj) (tier : String) : Bool :=
  match kcField pd tier with
  | some v => isList v
  | none => true

/-- Shape assumption on the whole provider payload. -/
def kcShapeOk (parsed : JValue) : Bool :=
  match parsed with
  | .obj pd => tierShape pd "associates" && tierShape pd "bachelors"
  | _ => true

/-- Invariant carried through the post-processing: in each tier,
`keyCourses` is absent or a list of at most 5 entries. -/
def tierKC5 (pd : JObj) (tier : String) : Bool :=
  match kcField pd tier with
  | some (.list l) => decide (l.length ≤ 5)
  | some _ => false
  | none => true

theorem tierKC5_bounded (pd : JObj) (tier : String) (h : tierKC5 pd tier = true) :
    tierKCBounded pd tier = true := by
  unfold tierKC5 at h
  unfold tierKCBounded
  cases hk : kcField pd tier with
  | none => simp only [hk]
  | some w =>
      simp only [hk] at h ⊢
      cases w <;> simp_all

theorem kcField_congr (pd pd' : JObj) (tier : String)
    (h : jlookup pd' tier = jlookup pd tier) : kcField pd' tier = kcField pd tier := by
  unfold kcField
  rw [h]

theorem tierKC5_congr (pd pd' : JObj) (tier : String)
    (h : jlookup pd' tier = jlookup pd tier) : tierKC5 pd' tier = tierKC5 pd tier := by
  unfold tierKC5
  rw [kcField_congr pd pd' tier h]

theorem jlookup_filter_ne (o : JObj) (key k : String) (h : k ≠ key) :
    jlookup (o.filter (fun p => !(p.1 == key))) k = jlookup o k := by
  induction o with
  | nil => rfl
  | cons p rest ih =>
      obtain ⟨k0, v0⟩ := p
      by_cases h0 : k0 = key
      · subst h0
        rw [List.filter_cons_of_neg (by simp)]
        rw [ih]
        show jlookup rest k = if k0 == k then some v0 else jlookup rest k
        rw [if_neg (by simp [Ne.symm h])]
      · rw [List.filter_cons_of_pos (by simp [h0])]
        show (if k0 == k then some v0 else jlookup (rest.filter _) k) =
          if k0 == k then some v0 else jlookup rest k
        by_cases hk : k0 = k
        · rw [if_pos (by simp [hk]), if_pos (by simp [hk])]
        · rw [if_neg (by simp [hk]), if_neg (by simp [hk]), ih]

theorem jlookup_jdel_ne (o : JObj) (key k : String) (h : k ≠ key) :
    jlookup (jdel o key) k = jlookup o k := jlookup_filter_ne o key k h

theorem filterCredList_preserves (key : String) (pd pd' : JObj)
    (h : filterCredList key pd = .ok pd') (k : String) (hk : k ≠ key) :
    jlookup pd' k = jlookup pd k := by
  unfold filterCredList at h
  simp only [bind, Except.bind, pure, Except.pure] at h
  repeat' split at h
  any_goals exact Except.noConfusion h
  all_goals simp only [Except.ok.injEq] at h
  all_goals subst h
  all_goals simp [jlookup_jdel_ne _ _ _ hk, jlookup_jset_ne _ _ _ _ hk]

theorem tierShape_congr (pd pd' : JObj) (tier : String)
    (h : jlookup pd' tier = jlookup pd tier) : tierShape pd' tier = tierShape pd tier := by
  unfold tierShape
  rw [kcField_congr pd pd' tier h]

theorem jlookup_none_of_not_hasKey (pd : JObj) (k : String)
    (h : hasKey pd k = false) : jlookup pd k = none := by
  unfold hasKey at h
  cases hl : jlookup pd k with
  | none => rfl
  | some v => rw [hl] at h; simp at h

theorem tierKC5_of_none (pd : JObj) (tier : String)
    (h : jlookup pd tier = none) : tierKC5 pd tier = true := by
  unfold tierKC5 kcField
  rw [h]

/-- The internal structure fallback satisfies the course-list bound at both
tiers (its lists are singletons). -/
theorem structFallbackInternal_bounded (career degree : String) :
    keyCoursesBounded (structFallbackInternal career degree) = true := by
  simp only [structFallbackInternal]
  by_cases hdeg : (degree == "bachelor") = true
  · rw [if_pos hdeg]
    rfl
  · rw [if_neg hdeg]
    rfl

/-- Checker for the claim as written: every course list stored in a tier of
the produced document — `keyCourses` and `fullCourseList` alike — has at
most 5 entries. -/
def allCourseListsBounded (v : JValue) : Bool :=
  match v with
  | .obj pd =>
      ["associates", "bachelors"].all (fun tier =>
        match jlookup pd tier with
        | some (.obj a) =>
            ["keyCourses", "fullCourseList"].all (fun key =>
              match jlookup a key with
              | some (.list l) => decide (l.length ≤ 5)
              | _ => true)
        | _ => true)
  | _ => false

/-- A knowledge-store item with six courses. -/
def c9Mdc : JObj :=
  [("programName", .str "Welding Technology"),
   ("degreeType", .str "associate in science"),
   ("courses", .list
      [.obj [("code", .str "WLD1000"), ("name", .str "Welding Fundamentals")],
       .obj [("code", .str "WLD1100"), ("name", .str "Blueprint Reading")],
       .obj [("code", .str "WLD1200"), ("name", .str "Shielded Metal Arc Welding")],
       .obj [("code", .str "WLD1300"), ("name", .str "Gas Metal Arc Welding")],
       .obj [("code", .str "WLD1400"), ("name", .str "Flux Cored Arc Welding")],
       .obj [("code", .str "WLD1500"), ("name", .str "Pipe Welding")]])]

/-- A provider payload whose associate section lists seven key courses. -/
def c9Parsed : JValue :=
  .obj [("career", .str "Welder"), ("degreeLevel", .str "associate"),
        ("associates", .obj
           [("programs", .list [.str "Welding Technology AS"]),
            ("duration", .str "2 years"),
            ("keyCourses", .list [.str "C1", .str "C2", .str "C3", .str "C4",
                                  .str "C5", .str "C6", .str "C7"])]),
        ("internships", .list [.str "Shop internship"])]

/-- C9 counterexample: with a six-course knowledge-store item, the structure
task truncates `keyCourses` to 5 but emits an untruncated six-entry
`fullCourseList` (lines 619-638 never apply the cap), so not every course
list of the output is bounded by 5. -/
theorem c9_counterexample :
    allCourseListsBounded (genStructure "Welder" "associate" (some c9Mdc)
      (some "Welding Technology") c9Parsed "raw") = false := by rfl

theorem hasKey_some (pd : JObj) (k : String) (h : hasKey pd k = true) :
    ∃ v, jlookup pd k = some v := by
  unfold hasKey at h
  cases hl : jlookup pd k with
  | none => rw [hl] at h; simp at h
  | some v => exact ⟨v, rfl⟩

theorem truncateKeyCourses_ok (tier : String) (pd pd' : JObj)
    (hs : tierShape pd tier = true)
    (h : truncateKeyCourses tier pd = .ok pd') :
    tierKC5 pd' tier = true ∧ ∀ k, k ≠ tier → jlookup pd' k = jlookup pd k := by
  unfold truncateKeyCourses at h
  simp only [bind, Except.bind, pure, Except.pure] at h
  by_cases hk : hasKey pd tier = true
  · rw [if_pos hk] at h
    obtain ⟨v, hv⟩ := hasKey_some pd tier hk
    have hjget : jget pd tier = v := by unfold jget; rw [hv]; rfl
    rw [hjget] at h
    cases v with
    | obj a =>
        simp only [pyIn] at h
        by_cases hka : hasKey a "keyCourses" = true
        · rw [if_pos hka] at h
          simp only [hv] at h
          obtain ⟨kc, hkc⟩ := hasKey_some a "keyCourses" hka
          unfold tierShape at hs
          unfold kcField at hs
          rw [hv] at hs
          simp only [hkc] at h hs
          cases kc with
          | list xs =>
              simp only [Except.ok.injEq] at h
              subst h
              refine ⟨?_, fun k hkk => jlookup_jset_ne _ _ _ _ hkk⟩
              unfold tierKC5 kcField
              rw [jlookup_jset_self]
              show (match jlookup (jset a "keyCourses" (JValue.list (List.take 5 xs)))
                  "keyCourses" with
                | some (JValue.list l) => decide (l.length ≤ 5)
                | some _ => false
                | none => true) = true
              rw [jlookup_jset_self]
              show decide ((List.take 5 xs).length ≤ 5) = true
              simp only [decide_eq_true_eq, List.length_take]
              omega
          | null => exact Bool.noConfusion hs
          | bool b => exact Bool.noConfusion hs
          | num n => exact Bool.noConfusion hs
          | str s => exact Bool.noConfusion hs
          | obj fs => exact Bool.noConfusion hs
        · rw [if_neg hka] at h
          simp only [Except.ok.injEq] at h
          subst h
          refine ⟨?_, fun k _ => rfl⟩
          unfold tierKC5 kcField
          rw [hv]
          show (match jlookup a "keyCourses" with
            | some (JValue.list l) => decide (l.length ≤ 5)
            | some _ => false
            | none => true) = true
          rw [jlookup_none_of_not_hasKey a "keyCourses" (by
            cases hb : hasKey a "keyCourses"
            · rfl
            · exact absurd hb hka)]
      | str s =>
          simp only [pyIn] at h
          cases hc : strContains s "keyCourses" with
          | true =>
              rw [hc] at h
              rw [if_pos rfl] at h
              simp only [hv] at h
              exact Except.noConfusion h
          | false =>
              rw [hc] at h
              rw [if_neg (by simp)] at h
              simp only [Except.ok.injEq] at h
              subst h
              refine ⟨?_, fun k _ => rfl⟩
              unfold tierKC5 kcField
              rw [hv]
      | list xs =>
          simp only [pyIn] at h
          cases hc : xs.any (fun x => jeqStr x "keyCourses") with
          | true =>
              rw [hc] at h
              rw [if_pos rfl] at h
              simp only [hv] at h
              exact Except.noConfusion h
          | false =>
              rw [hc] at h
              rw [if_neg (by simp)] at h
              simp only [Except.ok.injEq] at h
              subst h
              refine ⟨?_, fun k _ => rfl⟩
              unfold tierKC5 kcField
              rw [hv]
      | null => exact Except.noConfusion h
      | bool b => exact Except.noConfusion h
      | num n => exact Except.noConfusion h
  · simp only [if_neg hk] at h
    simp at h
    subst h
    refine ⟨?_, fun k _ => rfl⟩
    exact tierKC5_of_none pd tier (jlookup_none_of_not_hasKey pd tier (by
      cases hb : hasKey pd tier
      · rfl
      · exact absurd hb hk))

theorem except_bind_ok {α β : Type} (x : Except String α) (f : α → Except String β) (b : β)
    (h : (x >>= f) = .ok b) : ∃ a, x = .ok a ∧ f a = .ok b := by
  cases x with
  | error e => simp [bind, Except.bind] at h
  | ok a => exact ⟨a, rfl, by simpa [bind, Except.bind] using h⟩

/-- The truncation invariant on one optional field value. -/
def kcVal5 : Option JValue → Bool
  | some (.list l) => decide (l.length ≤ 5)
  | some _ => false
  | none => true

theorem tierKC5_eq (pd : JObj) (tier : String) :
    tierKC5 pd tier = kcVal5 (kcField pd tier) := by
  unfold tierKC5 kcVal5
  cases kcField pd tier with
  | none => rfl
  | some v => cases v <;> rfl

theorem kcField_jset_obj (pd : JObj) (tier : String) (a : JObj) :
    kcField (jset pd tier (.obj a)) tier = jlookup a "keyCourses" := by
  unfold kcField
  rw [jlookup_jset_self]

theorem kcField_lookup_obj (pd : JObj) (tier : String) (a : JObj)
    (h : jlookup pd tier = some (.obj a)) :
    kcField pd tier = jlookup a "keyCourses" := by
  unfold kcField
  rw [h]

theorem foldlM_length_le {α : Type} (f : List JValue → α → Except String (List JValue))
    (hf : ∀ acc c acc', f acc c = .ok acc' → acc'.length ≤ acc.length + 1) :
    ∀ (l : List α) (acc out : List JValue), List.foldlM f acc l = .ok out →
      out.length ≤ acc.length + l.length := by
  intro l
  induction l with
  | nil =>
      intro acc out h
      simp only [List.foldlM_nil, pure, Except.pure, Except.ok.injEq] at h
      subst h
      simp
  | cons c rest ih =>
      intro acc out h
      simp only [List.foldlM_cons, bind, Except.bind] at h
      cases hx : f acc c with
      | error e => rw [hx] at h; exact Except.noConfusion h
      | ok acc1 =>
          simp only [hx] at h
          have h2 := ih acc1 out h
          have h1 := hf acc c acc1 hx
          simp only [List.length_cons]
          omega

theorem validateCoursesAgainstMdc_len (m : JObj) (l : List JValue) (vc : JValue)
    (h : validateCoursesAgainstMdc (.list l) m = .ok vc) :
    vc = .list l ∨ ∃ l2, vc = .list l2 ∧ l2.length ≤ l.length := by
  unfold validateCoursesAgainstMdc at h
  by_cases hc : (!(!m.isEmpty) || !hasKey m "courses" || !truthy (jget m "courses")) = true
  · rw [if_pos hc] at h
    simp only [Except.ok.injEq] at h
    exact Or.inl h.symm
  · rw [if_neg hc] at h
    obtain ⟨mcourses, hmc, h⟩ := except_bind_ok _ _ _ h
    obtain ⟨codes, hcodes, h⟩ := except_bind_ok _ _ _ h
    obtain ⟨items, hitems, h⟩ := except_bind_ok _ _ _ h
    obtain ⟨valid, hvalid, h⟩ := except_bind_ok _ _ _ h
    have hil : items = l := by
      simp only [pyIter, Except.ok.injEq] at hitems
      exact hitems.symm
    subst hil
    have hlen : valid.length ≤ ([] : List JValue).length + items.length := by
      refine foldlM_length_le _ ?_ items [] valid hvalid
      intro acc c acc' hstep
      cases c with
      | str s =>
          dsimp only at hstep
          by_cases hin : codes.contains (pyUpper (pyStrip (beforeSep s " - "))) = true
          · rw [if_pos hin] at hstep
            simp only [Except.ok.injEq] at hstep
            subst hstep
            simp
          · rw [if_neg hin] at hstep
            simp only [Except.ok.injEq] at hstep
            subst hstep
            simp
      | obj cf =>
          dsimp only at hstep
          cases hgd : jgetD cf "code" (.str "") with
          | str s2 =>
              simp only [hgd] at hstep
              by_cases hin : codes.contains (pyUpper s2) = true
              · rw [if_pos hin] at hstep
                simp only [Except.ok.injEq] at hstep
                subst hstep
                simp
              · rw [if_neg hin] at hstep
                simp only [Except.ok.injEq] at hstep
                subst hstep
                simp
          | null => simp only [hgd] at hstep; exact Except.noConfusion hstep
          | bool b => simp only [hgd] at hstep; exact Except.noConfusion hstep
          | num n => simp only [hgd] at hstep; exact Except.noConfusion hstep
          | list xs => simp only [hgd] at hstep; exact Except.noConfusion hstep
          | obj fs => simp only [hgd] at hstep; exact Except.noConfusion hstep
      | null =>
          dsimp only at hstep
          simp only [Except.ok.injEq] at hstep
          subst hstep
          simp
      | bool b =>
          dsimp only at hstep
          simp only [Except.ok.injEq] at hstep
          subst hstep
          simp
      | num n =>
          dsimp only at hstep
          simp only [Except.ok.injEq] at hstep
          subst hstep
          simp
      | list xs =>
          dsimp only at hstep
          simp only [Except.ok.injEq] at hstep
          subst hstep
          simp
    by_cases hemp : (!valid.isEmpty) = true
    · rw [if_pos hemp] at h
      simp only [Except.ok.injEq] at h
      subst h
      exact Or.inr ⟨valid, rfl, by simpa using hlen⟩
    · rw [if_neg hemp] at h
      simp only [Except.ok.injEq] at h
      exact Or.inl h.symm

theorem stepEnsureAssoc_kc5 (career : String) (pd : JObj)
    (ha : tierKC5 pd "associates" = true) (hb : tierKC5 pd "bachelors" = true) :
    tierKC5 (stepEnsureAssoc career pd) "associates" = true ∧
    tierKC5 (stepEnsureAssoc career pd) "bachelors" = true := by
  unfold stepEnsureAssoc
  by_cases hk : (!hasKey pd "associates") = true
  · rw [if_pos hk]
    constructor
    · rw [tierKC5_eq, assocSkeleton, kcField_jset_obj]
      rfl
    · rw [tierKC5_congr pd _ "bachelors" (jlookup_jset_ne _ _ _ _ (by decide))]
      exact hb
  · rw [if_neg hk]
    exact ⟨ha, hb⟩

theorem stepEnsureBach_kc5 (degree : String) (mdc : Option JObj) (pd pd' : JObj)
    (h : stepEnsureBach degree mdc pd = .ok pd')
    (ha : tierKC5 pd "associates" = true) (hb : tierKC5 pd "bachelors" = true) :
    tierKC5 pd' "associates" = true ∧ tierKC5 pd' "bachelors" = true := by
  unfold stepEnsureBach at h
  by_cases hc : (degree == "bachelor" && !hasKey pd "bachelors") = true
  · rw [if_pos hc] at h
    simp only [bind, Except.bind] at h
    repeat' split at h
    any_goals exact Except.noConfusion h
    all_goals simp only [Except.ok.injEq] at h
    all_goals subst h
    all_goals constructor
    all_goals first
      | (rw [tierKC5_congr pd _ "associates" (jlookup_jset_ne _ _ _ _ (by decide))]
         exact ha)
      | (rw [tierKC5_eq, kcField_jset_obj]
         rfl)
      | (rw [tierKC5_eq, bachSkeletonTransfer, kcField_jset_obj]
         rfl)
  · rw [if_neg hc] at h
    simp only [Except.ok.injEq] at h
    subst h
    exact ⟨ha, hb⟩

theorem stepRelated_kc5 (rp : Option String) (pd : JObj) (tier : String)
    (hne : tier ≠ "relatedMDCProgram") :
    tierKC5 (stepRelated rp pd) tier = tierKC5 pd tier := by
  cases rp with
  | none => rfl
  | some r =>
      simp only [stepRelated]
      by_cases hr : (r != "") = true
      · rw [if_pos hr]
        exact tierKC5_congr pd _ tier (jlookup_jset_ne _ _ _ _ hne)
      · rw [if_neg hr]

theorem stepNote_kc5 (career : String) (pd : JObj) (tier : String)
    (hne : tier ≠ "note") :
    tierKC5 (stepNote career pd) tier = tierKC5 pd tier := by
  unfold stepNote
  by_cases h1 : (!hasKey pd "note" && hasKey pd "advisorNote") = true
  · rw [if_pos h1]
    exact tierKC5_congr pd _ tier (jlookup_jset_ne _ _ _ _ hne)
  · rw [if_neg h1]
    by_cases h2 : (!hasKey pd "note" || !truthy (jget pd "note")) = true
    · rw [if_pos h2]
      exact tierKC5_congr pd _ tier (jlookup_jset_ne _ _ _ _ hne)
    · rw [if_neg h2]

theorem stepFullCourses_kc5 (mdc : Option JObj) (pd pd' : JObj)
    (h : stepFullCourses mdc pd = .ok pd')
    (ha : tierKC5 pd "associates" = true) (hb : tierKC5 pd "bachelors" = true) :
    tierKC5 pd' "associates" = true ∧ tierKC5 pd' "bachelors" = true := by
  cases mdc with
  | none =>
      simp only [stepFullCourses, Except.ok.injEq] at h
      subst h
      exact ⟨ha, hb⟩
  | some m =>
      simp only [stepFullCourses] at h
      by_cases hc : (!m.isEmpty && hasKey m "courses" && truthy (jget m "courses")) = true
      · rw [if_pos hc] at h
        obtain ⟨cs, hcs, h⟩ := except_bind_ok _ _ _ h
        by_cases hk : hasKey pd "associates" = true
        · rw [if_pos hk] at h
          cases hla : jlookup pd "associates" with
          | none =>
              simp only [hla, Except.ok.injEq] at h
              subst h
              constructor
              · rw [tierKC5_eq, kcField_jset_obj]
                rfl
              · rw [tierKC5_congr pd _ "bachelors" (jlookup_jset_ne _ _ _ _ (by decide))]
                exact hb
          | some v =>
              cases v with
              | obj a =>
                  simp only [hla, Except.ok.injEq] at h
                  subst h
                  constructor
                  · rw [tierKC5_eq, kcField_jset_obj,
                        jlookup_jset_ne _ _ _ _ (by decide)]
                    rw [tierKC5_eq, kcField_lookup_obj pd _ a hla] at ha
                    exact ha
                  · rw [tierKC5_congr pd _ "bachelors" (jlookup_jset_ne _ _ _ _ (by decide))]
                    exact hb
              | null =>
                  simp only [hla, Except.ok.injEq] at h
                  subst h
                  refine ⟨by rw [tierKC5_eq, kcField_jset_obj]; rfl, ?_⟩
                  rw [tierKC5_congr pd _ "bachelors" (jlookup_jset_ne _ _ _ _ (by decide))]
                  exact hb
              | bool b =>
                  simp only [hla, Except.ok.injEq] at h
                  subst h
                  refine ⟨by rw [tierKC5_eq, kcField_jset_obj]; rfl, ?_⟩
                  rw [tierKC5_congr pd _ "bachelors" (jlookup_jset_ne _ _ _ _ (by decide))]
                  exact hb
              | num n =>
                  simp only [hla, Except.ok.injEq] at h
                  subst h
                  refine ⟨by rw [tierKC5_eq, kcField_jset_obj]; rfl, ?_⟩
                  rw [tierKC5_congr pd _ "bachelors" (jlookup_jset_ne _ _ _ _ (by decide))]
                  exact hb
              | str s =>
                  simp only [hla, Except.ok.injEq] at h
                  subst h
                  refine ⟨by rw [tierKC5_eq, kcField_jset_obj]; rfl, ?_⟩
                  rw [tierKC5_congr pd _ "bachelors" (jlookup_jset_ne _ _ _ _ (by decide))]
                  exact hb
              | list xs =>
                  simp only [hla, Except.ok.injEq] at h
                  subst h
                  refine ⟨by rw [tierKC5_eq, kcField_jset_obj]; rfl, ?_⟩
                  rw [tierKC5_congr pd _ "bachelors" (jlookup_jset_ne _ _ _ _ (by decide))]
                  exact hb
        · rw [if_neg hk] at h
          simp only [Except.ok.injEq] at h
          subst h
          exact ⟨ha, hb⟩
      · rw [if_neg hc] at h
        simp only [Except.ok.injEq] at h
        subst h
        exact ⟨ha, hb⟩

theorem stepValidate_kc5 (mdc : Option JObj) (pd pd' : JObj)
    (h : stepValidate mdc pd = .ok pd')
    (ha : tierKC5 pd "associates" = true) (hb : tierKC5 pd "bachelors" = true) :
    tierKC5 pd' "associates" = true ∧ tierKC5 pd' "bachelors" = true := by
  cases mdc with
  | none =>
      simp only [stepValidate, Except.ok.injEq] at h
      subst h
      exact ⟨ha, hb⟩
  | some m =>
      simp only [stepValidate] at h
      by_cases hm : (!m.isEmpty) = true
      · rw [if_pos hm] at h
        by_cases hkk : hasKey pd "associates" = true
        case neg =>
          rw [if_neg hkk] at h
          simp only [pure, Except.pure, bind, Except.bind] at h
          simp at h
          subst h
          exact ⟨ha, hb⟩
        rw [if_pos hkk] at h
        obtain ⟨b, hbv, h⟩ := except_bind_ok _ _ _ h
        cases b with
        | false =>
            rw [if_neg (by simp)] at h
            simp only [Except.ok.injEq] at h
            subst h
            exact ⟨ha, hb⟩
        | true =>
            rw [if_pos rfl] at h
            split at h
            · rename_i pd2 heq
              simp only [Except.ok.injEq] at h
              subst h
              obtain ⟨kc, hkc, heq⟩ := except_bind_ok _ _ _ heq
              obtain ⟨vc, hvc, heq⟩ := except_bind_ok _ _ _ heq
              cases hla : jlookup pd "associates" with
              | none => rw [hla] at heq; exact Except.noConfusion heq
              | some v =>
                  cases v with
                  | obj a =>
                      simp only [hla, Except.ok.injEq] at heq
                      subst heq
                      have hjget : jget pd "associates" = .obj a := by
                        unfold jget
                        rw [hla]
                        rfl
                      rw [hjget] at hkc
                      simp only [pyIndex] at hkc
                      cases hka : jlookup a "keyCourses" with
                      | none => rw [hka] at hkc; exact Except.noConfusion hkc
                      | some kc0 =>
                          simp only [hka, Except.ok.injEq] at hkc
                          subst hkc
                          rw [tierKC5_eq, kcField_lookup_obj pd _ a hla, hka] at ha
                          cases kc0 with
                          | list l =>
                              have hl5 : l.length ≤ 5 := by
                                simpa [kcVal5] using ha
                              have hvlen := validateCoursesAgainstMdc_len m l vc hvc
                              constructor
                              · rw [tierKC5_eq, kcField_jset_obj, jlookup_jset_self]
                                rcases hvlen with hvl | ⟨l2, hvl, hlen2⟩
                                · subst hvl
                                  simp [kcVal5, hl5]
                                · subst hvl
                                  simp only [kcVal5, decide_eq_true_eq]
                                  omega
                              · rw [tierKC5_congr pd _ "bachelors"
                                    (jlookup_jset_ne _ _ _ _ (by decide))]
                                exact hb
                          | null => simp [kcVal5] at ha
                          | bool b2 => simp [kcVal5] at ha
                          | num n => simp [kcVal5] at ha
                          | str s => simp [kcVal5] at ha
                          | obj fs => simp [kcVal5] at ha
                  | null => simp only [hla] at heq; exact Except.noConfusion heq
                  | bool b2 => simp only [hla] at heq; exact Except.noConfusion heq
                  | num n => simp only [hla] at heq; exact Except.noConfusion heq
                  | str s => simp only [hla] at heq; exact Except.noConfusion heq
                  | list xs => simp only [hla] at heq; exact Except.noConfusion heq
            · simp only [Except.ok.injEq] at h
              subst h
              exact ⟨ha, hb⟩
      · rw [if_neg hm] at h
        simp only [Except.ok.injEq] at h
        subst h
        exact ⟨ha, hb⟩

/-- C9 (amended): for a provider payload whose tier `keyCourses` fields are
lists when present, every `keyCourses` list of the structure task\x27s output
has at most 5 entries; the `fullCourseList` built from the knowledge store
(lines 619-638) is exempt — it is emitted untruncated. -/
theorem c9_key_courses_truncated (career degree : String) (mdc : Option JObj)
    (rp : Option String) (parsed : JValue) (raw : String)
    (hshape : kcShapeOk parsed = true) :
    keyCoursesBounded (genStructure career degree mdc rp parsed raw) = true := by
  unfold genStructure
  cases hres : processStructure career degree mdc rp parsed raw with
  | error e => exact structFallbackInternal_bounded career degree
  | ok out =>
      show keyCoursesBounded (.obj out) = true
      unfold processStructure at hres
      cases parsed with
      | null =>
          obtain ⟨pd0, hp0, _⟩ := except_bind_ok _ _ _ hres
          exact Except.noConfusion ((by simp only [asObjE] at hp0; exact hp0) :
            (Except.error "TypeError: payload is not a dict" : Except String JObj) = .ok pd0)
      | bool b =>
          obtain ⟨pd0, hp0, _⟩ := except_bind_ok _ _ _ hres
          exact Except.noConfusion ((by simp only [asObjE] at hp0; exact hp0) :
            (Except.error "TypeError: payload is not a dict" : Except String JObj) = .ok pd0)
      | num n =>
          obtain ⟨pd0, hp0, _⟩ := except_bind_ok _ _ _ hres
          exact Except.noConfusion ((by simp only [asObjE] at hp0; exact hp0) :
            (Except.error "TypeError: payload is not a dict" : Except String JObj) = .ok pd0)
      | str s =>
          obtain ⟨pd0, hp0, _⟩ := except_bind_ok _ _ _ hres
          exact Except.noConfusion ((by simp only [asObjE] at hp0; exact hp0) :
            (Except.error "TypeError: payload is not a dict" : Except String JObj) = .ok pd0)
      | list xs =>
          obtain ⟨pd0, hp0, _⟩ := except_bind_ok _ _ _ hres
          exact Except.noConfusion ((by simp only [asObjE] at hp0; exact hp0) :
            (Except.error "TypeError: payload is not a dict" : Except String JObj) = .ok pd0)
      | obj fs =>
          obtain ⟨pd0, hp0, hres⟩ := except_bind_ok _ _ _ hres
          have hfs : pd0 = fs := by
            simp only [asObjE, Except.ok.injEq] at hp0
            exact hp0.symm
          rw [← hfs] at hshape
          obtain ⟨pd1, h1, hres⟩ := except_bind_ok _ _ _ hres
          obtain ⟨pd2, h2, hres⟩ := except_bind_ok _ _ _ hres
          obtain ⟨pd3, h3, hres⟩ := except_bind_ok _ _ _ hres
          obtain ⟨pd4, h4, hres⟩ := except_bind_ok _ _ _ hres
          obtain ⟨pd6, h6, hres⟩ := except_bind_ok _ _ _ hres
          obtain ⟨pd7, h7, hres⟩ := except_bind_ok _ _ _ hres
          obtain ⟨pd9, h9, hres⟩ := except_bind_ok _ _ _ hres
          have hout : out = jset (stepNote career pd9) "rawResponse" (.str (pyStrip raw)) := by
            simpa [pure, Except.pure] using hres.symm
          simp only [kcShapeOk] at hshape
          rw [Bool.and_eq_true] at hshape
          obtain ⟨hsA0, hsB0⟩ := hshape
          clear hfs
          have hsA2 : tierShape pd2 "associates" = true := by
            rw [tierShape_congr _ _ _ (filterCredList_preserves _ _ _ h2 _ (by decide)),
                tierShape_congr _ _ _ (filterCredList_preserves _ _ _ h1 _ (by decide))]
            exact hsA0
          have hsB2 : tierShape pd2 "bachelors" = true := by
            rw [tierShape_congr _ _ _ (filterCredList_preserves _ _ _ h2 _ (by decide)),
                tierShape_congr _ _ _ (filterCredList_preserves _ _ _ h1 _ (by decide))]
            exact hsB0
          obtain ⟨hA3, hpres3⟩ := truncateKeyCourses_ok _ _ _ hsA2 h3
          have hsB3 : tierShape pd3 "bachelors" = true := by
            rw [tierShape_congr _ _ _ (hpres3 _ (by decide))]
            exact hsB2
          obtain ⟨hB4, hpres4⟩ := truncateKeyCourses_ok _ _ _ hsB3 h4
          have hA4 : tierKC5 pd4 "associates" = true := by
            rw [tierKC5_congr _ _ _ (hpres4 _ (by decide))]
            exact hA3
          obtain ⟨hA5, hB5⟩ := stepEnsureAssoc_kc5 career pd4 hA4 hB4
          obtain ⟨hA6, hB6⟩ := stepEnsureBach_kc5 degree mdc _ pd6 h6 hA5 hB5
          obtain ⟨hA7, hB7⟩ := stepValidate_kc5 mdc pd6 pd7 h7 hA6 hB6
          have hA8 : tierKC5 (stepRelated rp pd7) "associates" = true := by
            rw [stepRelated_kc5 rp pd7 _ (by decide)]
            exact hA7
          have hB8 : tierKC5 (stepRelated rp pd7) "bachelors" = true := by
            rw [stepRelated_kc5 rp pd7 _ (by decide)]
            exact hB7
          obtain ⟨hA9, hB9⟩ := stepFullCourses_kc5 mdc _ pd9 h9 hA8 hB8
          have hA10 : tierKC5 (stepNote career pd9) "associates" = true := by
            rw [stepNote_kc5 career pd9 _ (by decide)]
            exact hA9
          have hB10 : tierKC5 (stepNote career pd9) "bachelors" = true := by
            rw [stepNote_kc5 career pd9 _ (by decide)]
            exact hB9
          have hAout : tierKC5 out "associates" = true := by
            rw [hout, tierKC5_congr _ _ _ (jlookup_jset_ne _ _ _ _ (by decide))]
            exact hA10
          have hBout : tierKC5 out "bachelors" = true := by
            rw [hout, tierKC5_congr _ _ _ (jlookup_jset_ne _ _ _ _ (by decide))]
            exact hB10
          show (tierKCBounded out "associates" && tierKCBounded out "bachelors") = true
          rw [Bool.and_eq_true]
          exact ⟨tierKC5_bounded _ _ hAout, tierKC5_bounded _ _ hBout⟩

/-- Witness for the amended C9 theorem at the counterexample input: the
shape hypothesis holds there and the `keyCourses` bound follows. -/
theorem c9_witness :
    kcShapeOk c9Parsed = true ∧
    keyCoursesBounded (genStructure "Welder" "associate" (some c9Mdc)
      (some "Welding Technology") c9Parsed "raw") = true :=
  ⟨by rfl, c9_key_courses_truncated "Welder" "associate" (some c9Mdc)
    (some "Welding Technology") c9Parsed "raw" (by rfl)⟩

end NextWave















